import Mathlib

/-!
Verification of the runner identity resolution engine of the lough-5-site
repository against its natural-language specification.

The development shallowly embeds the relevant JavaScript sources:

* `scripts/assign-ids-to-new-year.js`  (namespace `NewYear`)
* `scripts/assign-runner-ids.js`       (namespace `FreshStart`)
* `scripts/review-warnings.js`         (namespace `Review`)
* `scripts/generate-runner-database.js` (namespace `GenerateDb`)

Strings are modelled as Lean `String` (lists of unicode scalar characters),
JavaScript numbers that hold exact small integers as `Int`/`Nat`, and the
floating-point similarity scores as exact rationals `ℚ`.  JavaScript objects
iterated with `for..in` are modelled as association lists in insertion order
(all keys that occur - runner ids, names, clubs - are non-integer-like
strings, for which JavaScript specifies insertion order).  `Set`/`Map` are
modelled as lists with membership / last-write-wins lookup.
-/

/-! ### Character-level helpers shared by the embedded scripts -/

/-- The ASCII apostrophe character. -/
def apostrophe : Char := Char.ofNat 39

/-- Characters matched by JavaScript `\s` that can occur in this data set:
space, tab, LF, VT, FF, CR and NBSP. -/
def isJsWhitespace (c : Char) : Bool :=
  c = ' ' || c = Char.ofNat 9 || c = Char.ofNat 10 || c = Char.ofNat 11 ||
  c = Char.ofNat 12 || c = Char.ofNat 13 || c = Char.ofNat 160

/-- The accented characters replaced by `normalizeAccents` in
`assign-ids-to-new-year.js` (the `/gi` flag makes each class match both
cases), one list per replacement target. -/
def aAccents : List Char := "áàâäãÁÀÂÄÃ".data

def eAccents : List Char := "éèêëÉÈÊË".data

def iAccents : List Char := "íìîïÍÌÎÏ".data

def oAccents : List Char := "óòôöõÓÒÔÖÕ".data

def uAccents : List Char := "úùûüÚÙÛÜ".data

def nAccents : List Char := "ñÑ".data

def cAccents : List Char := "çÇ".data

/-- The four Unicode single-quote variants `‘..‛` that are mapped
to an ASCII apostrophe. -/
def unicodeQuotes : List Char :=
  [Char.ofNat 0x2018, Char.ofNat 0x2019, Char.ofNat 0x201A, Char.ofNat 0x201B]

/-- One character step of `normalizeAccents`: the sequential regex
replacements of the source all act on disjoint single-character classes, so
together they are a single character map. -/
def accentChar (c : Char) : Char :=
  if c ∈ aAccents then 'a'
  else if c ∈ eAccents then 'e'
  else if c ∈ iAccents then 'i'
  else if c ∈ oAccents then 'o'
  else if c ∈ uAccents then 'u'
  else if c ∈ nAccents then 'n'
  else if c ∈ cAccents then 'c'
  else if c ∈ unicodeQuotes then apostrophe
  else c

/-- Pairs of (uppercase accented, lowercase accented) Latin characters, used
to model `String.prototype.toLowerCase` on the character range this data set
uses. -/
def accentLowerPairs : List (Char × Char) :=
  [('Á', 'á'), ('À', 'à'), ('Â', 'â'), ('Ä', 'ä'), ('Ã', 'ã'),
   ('É', 'é'), ('È', 'è'), ('Ê', 'ê'), ('Ë', 'ë'),
   ('Í', 'í'), ('Ì', 'ì'), ('Î', 'î'), ('Ï', 'ï'),
   ('Ó', 'ó'), ('Ò', 'ò'), ('Ô', 'ô'), ('Ö', 'ö'), ('Õ', 'õ'),
   ('Ú', 'ú'), ('Ù', 'ù'), ('Û', 'û'), ('Ü', 'ü'),
   ('Ñ', 'ñ'), ('Ç', 'ç')]

/-- JavaScript `toLowerCase`, modelled on ASCII letters and the accented
Latin letters occurring in this repository's data; other characters are kept
unchanged. -/
def jsToLower (c : Char) : Char :=
  if 'A' ≤ c ∧ c ≤ 'Z' then Char.ofNat (c.toNat + 32)
  else ((accentLowerPairs.lookup c).getD c)

/-- JavaScript `toUpperCase` on ASCII letters (only the first character of a
category code is ever inspected after uppercasing). -/
def jsToUpper (c : Char) : Char :=
  if 'a' ≤ c ∧ c ≤ 'z' then Char.ofNat (c.toNat - 32) else c

/-- The punctuation class stripped by `normalizeName`:
the regex `[.,\/#!$%\^&\*;:{}=\-_`~()]`. -/
def punctChars : List Char :=
  ['.', ',', '/', '#', '!', '$', '%', '^', '&', '*', ';', ':',
   Char.ofNat 123, Char.ofNat 125, '=', '-', '_', Char.ofNat 96, '~', '(', ')']

/-- Character kept by the regex class `[a-z0-9]`. -/
def isLowerAlnum (c : Char) : Bool :=
  ('a' ≤ c ∧ c ≤ 'z') || ('0' ≤ c ∧ c ≤ '9')

/-- JavaScript `String.prototype.trim` on a character list: remove leading
and trailing whitespace. -/
def jsTrim (l : List Char) : List Char :=
  ((l.dropWhile isJsWhitespace).reverse.dropWhile isJsWhitespace).reverse

/-- The regex replacement `.replace(/\s+/g, '')`. -/
def stripWs (l : List Char) : List Char := l.filter (fun c => ¬ isJsWhitespace c)

/-- The regex replacement `.replace(/[.,\/#!$%\^&\*;:{}=\-_`~()]/g, '')`. -/
def stripPunct (l : List Char) : List Char := l.filter (fun c => c ∉ punctChars)

/-- The regex replacement `.replace(/\s+/g, '-')`: every maximal whitespace
run becomes a single hyphen.  The boolean argument records whether the
previous character was part of a whitespace run. -/
def collapseWsHyphen : Bool → List Char → List Char
  | _, [] => []
  | prevWs, c :: rest =>
    if isJsWhitespace c then
      if prevWs then collapseWsHyphen true rest
      else '-' :: collapseWsHyphen true rest
    else c :: collapseWsHyphen false rest

/-- Insertion-order deduplication, the semantics of `[...new Set(list)]`. -/
def jsDedup {α : Type} [DecidableEq α] : List α → List α
  | [] => []
  | x :: xs => x :: (jsDedup xs).filter (fun y => y ≠ x)

/-! ### Levenshtein distance

`levenshteinDistance` appears with an identical body in both
`assign-ids-to-new-year.js` (lines 59-80) and `assign-runner-ids.js`
(lines 34-55).  The source fills a `(len1+1) × (len2+1)` dynamic-programming
matrix row by row; we embed exactly that row recurrence:
`matrix[i][j] = min(matrix[i-1][j]+1, matrix[i][j-1]+1, matrix[i-1][j-1]+cost)`. -/

/-- Compute the cells `matrix[i][1..]` of one DP row.  `prev` is the suffix
of the previous row starting at column `j-1` (so its head is
`matrix[i-1][j-1]` and the head of its tail is `matrix[i-1][j]`), and `left`
is the cell `matrix[i][j-1]` just computed. -/
def levRow (x : Char) : List Char → List Nat → Nat → List Nat
  | [], _, _ => []
  | _ :: _, [], _ => []
  | y :: ys, pPrev :: pRest, left =>
    let cost := if x = y then 0 else 1
    let cell := min (pRest.headD 0 + 1) (min (left + 1) (pPrev + cost))
    cell :: levRow x ys pRest cell

/-- One step of the outer loop over `str1`: from row `i` (`acc.1`) build
row `i+1`, whose column 0 is `i+1`. -/
def levStep (str2 : List Char) (acc : List Nat × Nat) (x : Char) : List Nat × Nat :=
  ((acc.2 + 1) :: levRow x str2 acc.1 (acc.2 + 1), acc.2 + 1)

/-- `levenshteinDistance(str1, str2)`: the early returns for empty inputs,
then the DP matrix; row 0 is `[0, 1, .., len2]` and the result is
`matrix[len1][len2]`. -/
def levenshteinDistance (str1 str2 : List Char) : Nat :=
  if str1.length = 0 then str2.length
  else if str2.length = 0 then str1.length
  else ((str1.foldl (levStep str2) (List.range (str2.length + 1), 0)).1).getD str2.length 0

/-! ### `assign-ids-to-new-year.js`: utility functions -/

namespace NewYear

/-- `normalizeAccents` (lines 37-50): accent folding plus Unicode-quote
normalization; `null`/`undefined`/empty input gives the empty string (we
model the absent-string case as `""`, which JavaScript treats as falsy). -/
def normalizeAccents (s : String) : String := ⟨s.data.map accentChar⟩

/-- `normalizeName` (lines 52-57): accent folding, lowercasing, trim, then
removal of all whitespace and of the punctuation class. -/
def normalizeName (name : String) : String :=
  ⟨stripPunct (stripWs (jsTrim ((name.data.map accentChar).map jsToLower)))⟩

/-- `calculateSimilarity` (lines 82-90): `1.0` for equal normalized strings,
otherwise `1 - distance / maxLength` computed over exact rationals. -/
def calculateSimilarity (name1 name2 : String) : ℚ :=
  let normalized1 := normalizeName name1
  let normalized2 := normalizeName name2
  if normalized1 = normalized2 then 1
  else
    let distance := levenshteinDistance normalized1.data normalized2.data
    let maxLength := max normalized1.data.length normalized2.data.length
    1 - (distance : ℚ) / (maxLength : ℚ)

end NewYear

/-! ### `assign-runner-ids.js`: utility functions -/

namespace FreshStart

/-- `normalizeName` (lines 27-32): like the new-year variant but with no
accent or quote normalization step. -/
def normalizeName (name : String) : String :=
  ⟨stripPunct (stripWs (jsTrim (name.data.map jsToLower)))⟩

/-- `calculateSimilarity` (lines 57-65), using this script's own
`normalizeName`. -/
def calculateSimilarity (name1 name2 : String) : ℚ :=
  let normalized1 := normalizeName name1
  let normalized2 := normalizeName name2
  if normalized1 = normalized2 then 1
  else
    let distance := levenshteinDistance normalized1.data normalized2.data
    let maxLength := max normalized1.data.length normalized2.data.length
    1 - (distance : ℚ) / (maxLength : ℚ)

end FreshStart

/-! ### `review-warnings.js`: utility functions -/

namespace Review

/-- `normalizeName` (lines 60-72): lowercase, accent and quote folding, then
strip every character outside `[a-z0-9]`. -/
def normalizeName (name : String) : String :=
  ⟨((name.data.map jsToLower).map accentChar).filter isLowerAlnum⟩

end Review

/-! ### Shared matcher helpers (identical bodies in both matcher scripts) -/

/-- `firstNameMatches` (new-year lines 92-96, fresh-start lines 67-71): the
first whitespace-delimited token of each trimmed name, truncated to three
characters and lowercased, must agree. -/
def firstNameMatches (name1 name2 : String) : Bool :=
  let firstOf := fun (n : String) =>
    (((jsTrim n.data).takeWhile (fun c => ¬ isJsWhitespace c)).take 3).map jsToLower
  firstOf name1 = firstOf name2

/-- `getGender` (new-year lines 98-104): the uppercased category's first
character; `M…` is male, `F…` female, anything else (including a missing or
empty category, modelled as `""`) unknown (`none`). -/
def getGender (category : String) : Option Char :=
  match category.data with
  | [] => none
  | c :: _ =>
    if jsToUpper c = 'M' then some 'M'
    else if jsToUpper c = 'F' then some 'F'
    else none

/-! ### Time parsing and the time-plausibility gate (identical bodies in
both matcher scripts: new-year lines 106-121, fresh-start lines 81-96) -/

/-- ASCII decimal digit test. -/
def isAsciiDigit (c : Char) : Bool := '0' ≤ c ∧ c ≤ '9'

/-- Numeric value of an ASCII digit character. -/
def digitVal (c : Char) : Nat := c.toNat - 48

/-- The leading decimal-digit run of `parseInt`, `none` when there is no
digit. -/
def parseDigits (l : List Char) : Option Nat :=
  let ds := l.takeWhile isAsciiDigit
  if ds.isEmpty then none
  else some (ds.foldl (fun a c => a * 10 + digitVal c) 0)

/-- JavaScript `parseInt(s, 10)`: skip leading whitespace, allow one sign,
then read the leading digit run; `NaN` (here `none`) if there is none. -/
def jsParseInt (l : List Char) : Option Int :=
  match l.dropWhile isJsWhitespace with
  | '-' :: rest => (parseDigits rest).map (fun n => -(n : Int))
  | '+' :: rest => (parseDigits rest).map (fun n => (n : Int))
  | rest => (parseDigits rest).map (fun n => (n : Int))

/-- JavaScript `String.prototype.split` on a single separator character
(empty pieces are preserved; splitting `""` gives `[""]`). -/
def jsSplit (sep : Char) : List Char → List (List Char)
  | [] => [[]]
  | c :: rest =>
    match jsSplit sep rest with
    | [] => [[]]
    | hd :: tl => if c = sep then [] :: hd :: tl else (c :: hd) :: tl

/-- `timeToSeconds`: replace `,`/`.` by `:`, trim, split on `:`, parse the
two or three fields.  A missing time (`""`), a wrong field count, or a
non-numeric field (JavaScript `NaN`, which propagates through the sum and is
falsy like `null` at every use site) all give `none`. -/
def timeToSeconds (timeStr : String) : Option Int :=
  if timeStr = "" then none
  else
    let cleaned := jsTrim (timeStr.data.map (fun c => if c = ',' ∨ c = '.' then ':' else c))
    match (jsSplit ':' cleaned).map jsParseInt with
    | [some x, some y] => some (x * 60 + y)
    | [some x, some y, some z] => some (x * 3600 + y * 60 + z)
    | [_, _] => none
    | [_, _, _] => none
    | _ => none

/-- `TIME_VARIANCE_THRESHOLD = 0.40`. -/
def TIME_VARIANCE_THRESHOLD : ℚ := 40 / 100

/-- `isReasonableTimeVariance`: true when either time is missing,
unparseable or zero (all falsy in the source's `!time1 || !time2` test),
otherwise the relative difference must not exceed 40%. -/
def isReasonableTimeVariance (time1Str time2Str : String) : Bool :=
  match timeToSeconds time1Str, timeToSeconds time2Str with
  | some t1, some t2 =>
    if t1 = 0 ∨ t2 = 0 then true
    else |(t1 : ℚ) - (t2 : ℚ)| / ((min t1 t2 : Int) : ℚ) ≤ TIME_VARIANCE_THRESHOLD
  | _, _ => true

/-- `DEFAULT_AUTO_THRESHOLD = 0.92` (both matcher scripts). -/
def DEFAULT_AUTO_THRESHOLD : ℚ := 92 / 100

/-- `WARNING_THRESHOLD = 0.85` (both matcher scripts). -/
def WARNING_THRESHOLD : ℚ := 85 / 100

/-! ### ID minting -/

/-- Little-endian decimal digits with explicit fuel (so that the definition
is structurally recursive and evaluates inside the kernel); `fuel ≥ n` is
always sufficient. -/
def natDigitsRev (fuel n : Nat) : List Nat :=
  match fuel with
  | 0 => []
  | f + 1 => if n < 10 then [n] else n % 10 :: natDigitsRev f (n / 10)

/-- Decimal rendering of a counter, the JavaScript template `${counter}`. -/
def natToChars (n : Nat) : List Char :=
  ((natDigitsRev (n + 1) n).map Nat.digitChar).reverse

/-- The candidate id `` `${base}-${k}` `` tried by the counter loops. -/
def mkSuffixId (base : String) (k : Nat) : String := base ++ "-" ++ ⟨natToChars k⟩

/-- The `while (existingIds.has(...)) counter++` loop: starting at `start`,
return the first index whose candidate id is free.  The fuel only bounds the
search; `existingIds.length + 1` trials always suffice (see
`findFreeLoop_not_mem`). -/
def findFreeLoop (existingIds : List String) (f : Nat → String) : Nat → Nat → Nat
  | start, 0 => start
  | start, fuel + 1 =>
    if f start ∈ existingIds then findFreeLoop existingIds f (start + 1) fuel else start

/-- Run a counter loop for `base` starting at `start` and return the chosen
id. -/
def mintWithCounter (existingIds : List String) (base : String) (start : Nat) : String :=
  mkSuffixId base (findFreeLoop existingIds (mkSuffixId base) start (existingIds.length + 1))

namespace NewYear

/-- The slug built by `generateRunnerId` (lines 131-134): accent folding,
lowercase, trim, keep `[a-z0-9\s]`, then whitespace runs become hyphens. -/
def slugOf (name : String) : String :=
  ⟨collapseWsHyphen false
    ((jsTrim ((name.data.map accentChar).map jsToLower)).filter
      (fun c => isLowerAlnum c || isJsWhitespace c))⟩

/-- The club disambiguator (lines 146-149): the slug of the club, truncated
at its first hyphen (`split('-')[0]`). -/
def clubFirstToken (club : String) : String :=
  ⟨((slugOf club).data).takeWhile (fun c => c ≠ '-')⟩

/-- `generateRunnerId` (lines 123-157): blank names mint `unknown-runner-N`;
otherwise try the name slug, then (when a club is present) the slug plus the
club's first token, then the smallest free integer suffix from 2. -/
def generateRunnerId (name : String) (existingIds : List String) (club : String) : String :=
  if jsTrim name.data = [] then mintWithCounter existingIds "unknown-runner" 1
  else
    let id := slugOf name
    if id = "" then mintWithCounter existingIds "unknown-runner" 1
    else if id ∉ existingIds then id
    else if club ≠ "" then
      let idWithClub := id ++ "-" ++ clubFirstToken club
      if idWithClub ∉ existingIds then idWithClub
      else mintWithCounter existingIds id 2
    else mintWithCounter existingIds id 2

end NewYear

namespace FreshStart

/-- The slug built by `generateRunnerId` (lines 106-108): as in the new-year
script but without the accent-folding step. -/
def slugOf (name : String) : String :=
  ⟨collapseWsHyphen false
    ((jsTrim (name.data.map jsToLower)).filter
      (fun c => isLowerAlnum c || isJsWhitespace c))⟩

/-- The club disambiguator (lines 120-123). -/
def clubFirstToken (club : String) : String :=
  ⟨((slugOf club).data).takeWhile (fun c => c ≠ '-')⟩

/-- `generateRunnerId` (lines 98-131), structurally identical to the
new-year variant modulo the missing accent folding. -/
def generateRunnerId (name : String) (existingIds : List String) (club : String) : String :=
  if jsTrim name.data = [] then mintWithCounter existingIds "unknown-runner" 1
  else
    let id := slugOf name
    if id = "" then mintWithCounter existingIds "unknown-runner" 1
    else if id ∉ existingIds then id
    else if club ≠ "" then
      let idWithClub := id ++ "-" ++ clubFirstToken club
      if idWithClub ∉ existingIds then idWithClub
      else mintWithCounter existingIds id 2
    else mintWithCounter existingIds id 2

end FreshStart

namespace Review

/-- `generateRunnerId` of `review-warnings.js` (lines 74-106).  Note the
different chain: the base id is unhyphenated, and when a club is present its
10-character token is appended *before* any collision check. -/
def generateRunnerId (name : String) (existingIds : List String) (club : String) : String :=
  let normalized := normalizeName name
  if normalized = "" then mintWithCounter existingIds "unknown-runner" 1
  else
    let baseId :=
      if club ≠ "" then
        let clubPart : String := ⟨(normalizeName club).data.take 10⟩
        if clubPart ≠ "" then normalized ++ "-" ++ clubPart else normalized
      else normalized
    if baseId ∉ existingIds then baseId
    else mintWithCounter existingIds baseId 2

end Review

/-! ### Data model -/

/-- One result row of a yearly file.  Optional string fields (`Category`,
`Club`, `Chip Time`) are modelled as `String` with `""` for absent values,
matching JavaScript truthiness at every use site; `year` is the field added
when a historical file is loaded (`0` before that); `runner_id` is absent
until resolved. -/
structure ResultEntry where
  Position : Int
  Name : String
  Category : String
  Club : String
  ChipTime : String
  year : Int
  runner_id : Option String
deriving DecidableEq, Repr

/-- The value returned by `findBestMatch`: a candidate runner id, a
confidence score, and whether the match came from the known-name-change
table (`reason: 'known_name_change'`). -/
structure MatchResult where
  runnerId : String
  confidence : ℚ
  nameChange : Bool
deriving DecidableEq, Repr

/-- One entry of `stats.warnings` (`uncertain_matches` in the warnings
file). -/
structure UncertainMatch where
  year : Int
  position : Int
  name : String
  suggested_id : String
  confidence : ℚ
deriving DecidableEq, Repr

/-- One entry of `stats.duplicatesInNewYear`. -/
structure DupPair where
  position1 : Int
  position2 : Int
  name1 : String
  name2 : String
  similarity : ℚ
deriving DecidableEq, Repr

/-- One ruling of a disambiguation ledger file. -/
structure Decision where
  position : Int
  name : String
  runner_id : String
deriving DecidableEq, Repr

/-- `runnerGroups`: a JavaScript object `runner_id -> array of results`,
iterated in insertion order. -/
abbrev RunnerGroups := List (String × List ResultEntry)

/-- The known-name-change table `runner_id -> [alternate names]`. -/
abbrev NameChanges := List (String × List String)

/-- Property lookup on an object modelled as an association list with unique
keys. -/
def jsObjGet {β : Type} (obj : List (String × β)) (k : String) : Option β :=
  (obj.find? (fun p => p.1 = k)).map (·.2)

/-- Lookup in the disambiguation `Map` built by `loadDisambiguation`
(lines 196-201): keys are `` `${position}:${name}` `` and `Map.set` makes
the last decision for a key win.  Since a position is an integer, the key
uniquely determines the `(position, name)` pair. -/
def disambGet (decisions : List Decision) (position : Int) (name : String) : Option String :=
  decisions.foldl
    (fun acc d => if d.position = position ∧ d.name = name then some d.runner_id else acc)
    none

/-- JavaScript `slice(-n)`: the last `n` elements. -/
def takeLast {α : Type} (n : Nat) (l : List α) : List α := l.drop (l.length - n)

namespace NewYear

/-- The gender gate as used inside `findBestMatch` (line 338 and line 286):
the pair is rejected only when both genders are known and differ. -/
def genderOk (result sample : ResultEntry) : Bool :=
  match getGender result.Category, getGender sample.Category with
  | some g1, some g2 => g1 = g2
  | _, _ => true

/-- The time-consistency check of `findBestMatch` (lines 342-358): prefer
the last (up to) five appearances within the last five years, falling back
to the whole history; the entry must have a reasonable variance against
every checked result that has a chip time. -/
def checkTimeConsistent (targetYear : Int) (result : ResultEntry)
    (group : List ResultEntry) : Bool :=
  let recentResults :=
    takeLast 5 (group.filter (fun r => decide (r.year ≠ 0 ∧ targetYear - r.year ≤ 5)))
  let resultsToCheck := if recentResults.length > 0 then recentResults else group
  resultsToCheck.all (fun groupResult =>
    if groupResult.ChipTime ≠ "" ∧ result.ChipTime ≠ "" then
      isReasonableTimeVariance groupResult.ChipTime result.ChipTime
    else true)

/-- The known-name-change test of `findBestMatch` (lines 276-311): some
listed alternate name normalizes identically to the entry's name, and the
gender and time gates (which do not depend on which alternate name hit)
pass. -/
def knownNameChangeHit (targetYear : Int) (nameChanges : NameChanges)
    (result : ResultEntry) (runnerId : String) (sampleResult : ResultEntry)
    (group : List ResultEntry) : Bool :=
  match jsObjGet nameChanges runnerId with
  | none => false
  | some knownNames =>
    knownNames.any (fun knownName =>
      normalizeName result.Name = normalizeName knownName
      && genderOk result sampleResult
      && checkTimeConsistent targetYear result group)

/-- The inner loop of lines 319-328: the best similarity of the entry's name
against all historical names of one runner, together with the first name
attaining it (strict improvement, so earlier names win ties). -/
def bestAmongNames (resultName : String) (names : List String) : ℚ × Option String :=
  names.foldl
    (fun acc n =>
      let similarity := calculateSimilarity resultName n
      if similarity > acc.1 then (similarity, some n) else acc)
    ((0 : ℚ), none)

/-- The `for (const runnerId in runnerGroups)` loop of `findBestMatch`
(lines 265-367), threading the running best match and best score.  A
known-name-change hit returns immediately; otherwise a runner is skipped
unless its best historical-name similarity reaches `WARNING_THRESHOLD` and
the first-name, gender and time gates pass; an empty group (impossible for
groups built by `loadReferenceData`) is skipped where the source would fault
on `group[0]`. -/
def findBestMatchGo (targetYear : Int) (result : ResultEntry) (nameChanges : NameChanges) :
    RunnerGroups → Option MatchResult → ℚ → Option MatchResult
  | [], best, _ => best
  | (runnerId, group) :: rest, best, bestScore =>
    match group with
    | [] => findBestMatchGo targetYear result nameChanges rest best bestScore
    | sampleResult :: _ =>
      if knownNameChangeHit targetYear nameChanges result runnerId sampleResult group then
        some ⟨runnerId, 1, true⟩
      else
        let b := bestAmongNames result.Name (jsDedup (group.map (·.Name)))
        if b.1 < WARNING_THRESHOLD then
          findBestMatchGo targetYear result nameChanges rest best bestScore
        else if ¬ firstNameMatches result.Name (b.2.getD "") then
          findBestMatchGo targetYear result nameChanges rest best bestScore
        else if ¬ genderOk result sampleResult then
          findBestMatchGo targetYear result nameChanges rest best bestScore
        else if ¬ checkTimeConsistent targetYear result group then
          findBestMatchGo targetYear result nameChanges rest best bestScore
        else if b.1 > bestScore then
          findBestMatchGo targetYear result nameChanges rest (some ⟨runnerId, b.1, false⟩) b.1
        else
          findBestMatchGo targetYear result nameChanges rest best bestScore

/-- `findBestMatch(result, runnerGroups, nameChanges)`. -/
def findBestMatch (targetYear : Int) (result : ResultEntry) (runnerGroups : RunnerGroups)
    (nameChanges : NameChanges) : Option MatchResult :=
  findBestMatchGo targetYear result nameChanges runnerGroups none 0

/-- The decision taken for one entry in phase 1 of `assignIdsToNewYear`
(lines 384-430). -/
inductive P1Result where
  | alreadyAssigned
  | disambiguated (rid : String)
  | auto (m : MatchResult)
  | warned (m : MatchResult)
  | unmatched
deriving DecidableEq, Repr

/-- Phase-1 decision for one entry: entries that already carry a
`runner_id` are not processed; the disambiguation ledger is consulted
first; then `findBestMatch` with the auto-assign and warning thresholds. -/
def phase1Decide (targetYear : Int) (runnerGroups : RunnerGroups) (nameChanges : NameChanges)
    (disambiguation : List Decision) (confidence : ℚ) (result : ResultEntry) : P1Result :=
  if result.runner_id ≠ none then .alreadyAssigned
  else
    match disambGet disambiguation result.Position result.Name with
    | some rid => .disambiguated rid
    | none =>
      match findBestMatch targetYear result runnerGroups nameChanges with
      | some m =>
        if m.confidence ≥ confidence then .auto m
        else if m.confidence ≥ WARNING_THRESHOLD then .warned m
        else .unmatched
      | none => .unmatched

/-- The in-place mutation phase 1 performs on one entry. -/
def applyPhase1 (p : P1Result) (e : ResultEntry) : ResultEntry :=
  match p with
  | .disambiguated rid => { e with runner_id := some rid }
  | .auto m => { e with runner_id := some m.runnerId }
  | _ => e

/-- The pair test of phase 2 (lines 447-478): both entries undecided by the
ledger, similarity at least `0.80`, matching first names, and genders not
known-and-different. -/
def dupCheck (disambiguation : List Decision) (r1 r2 : ResultEntry) : Bool :=
  if (disambGet disambiguation r1.Position r1.Name).isSome
      || (disambGet disambiguation r2.Position r2.Name).isSome then false
  else
    calculateSimilarity r1.Name r2.Name ≥ 80 / 100
    && firstNameMatches r1.Name r2.Name
    && genderOk r1 r2

/-- Phase 2: every ordered pair `i < j` of still-unassigned entries that
passes `dupCheck` (the source's nested loops). -/
def duplicatePairs (disambiguation : List Decision) : List ResultEntry → List DupPair
  | [] => []
  | r1 :: rest =>
    rest.filterMap (fun r2 =>
      if dupCheck disambiguation r1 r2 then
        some ⟨r1.Position, r2.Position, r1.Name, r2.Name, calculateSimilarity r1.Name r2.Name⟩
      else none)
    ++ duplicatePairs disambiguation rest

/-- The `inDuplicatePair` set of positions. -/
def dupPositions (pairs : List DupPair) : List Int :=
  pairs.foldr (fun p acc => p.position1 :: p.position2 :: acc) []

/-- Phase 3 (lines 484-494): walk the (phase-1-updated) entries in order;
every entry still without a `runner_id` and not in a duplicate pair is
minted a new id, which is immediately added to `existingIds`.  The entries
without a `runner_id` after phase 1 are exactly the source's
`stillUnassigned` list, in the same order, so threading the id set over the
full list is the same computation. -/
def phase3 (dupPos : List Int) : List ResultEntry → List String → List ResultEntry × List String
  | [], existingIds => ([], existingIds)
  | e :: rest, existingIds =>
    if e.runner_id = none ∧ e.Position ∉ dupPos then
      let newId := generateRunnerId e.Name existingIds e.Club
      let next := phase3 dupPos rest (existingIds ++ [newId])
      ({ e with runner_id := some newId } :: next.1, next.2)
    else
      let next := phase3 dupPos rest existingIds
      (e :: next.1, next.2)

/-- The observable outcome of one `assignIdsToNewYear` run: the rewritten
target-year entries, the two warning lists, and the final id set. -/
structure RunOutput where
  entries : List ResultEntry
  uncertainMatches : List UncertainMatch
  duplicatesInNewYear : List DupPair
  existingIds : List String
deriving DecidableEq, Repr

/-- `assignIdsToNewYear` (lines 369-509): ledger replay and fuzzy matching
per entry (phase 1), intra-year duplicate detection among the remaining
unassigned entries (phase 2), and minting for the rest (phase 3). -/
def assignIdsToNewYear (targetYear : Int) (targetYearResults : List ResultEntry)
    (runnerGroups : RunnerGroups) (existingIds : List String) (nameChanges : NameChanges)
    (disambiguation : List Decision) (confidence : ℚ) : RunOutput :=
  let decide1 := phase1Decide targetYear runnerGroups nameChanges disambiguation confidence
  let entries1 := targetYearResults.map (fun e => applyPhase1 (decide1 e) e)
  let warnings := targetYearResults.filterMap (fun e =>
    match decide1 e with
    | .warned m => some ⟨targetYear, e.Position, e.Name, m.runnerId, m.confidence⟩
    | _ => none)
  let stillUnassigned := targetYearResults.filter (fun e =>
    match decide1 e with
    | .warned _ => true
    | .unmatched => true
    | _ => false)
  let pairs := duplicatePairs disambiguation stillUnassigned
  let final := phase3 (dupPositions pairs) entries1 existingIds
  ⟨final.1, warnings, pairs, final.2⟩

end NewYear

/-! ### `assign-runner-ids.js`: the fresh-start resolver -/

namespace FreshStart

/-- The gender gate (lines 199-201), identical to the new-year one. -/
def genderOk (result sample : ResultEntry) : Bool :=
  match getGender result.Category, getGender sample.Category with
  | some g1, some g2 => g1 = g2
  | _, _ => true

/-- The time-consistency check of this script's `findBestMatch`
(lines 203-213): the whole group is checked (no recency filter). -/
def checkTimeConsistent (result : ResultEntry) (group : List ResultEntry) : Bool :=
  group.all (fun groupResult =>
    if groupResult.ChipTime ≠ "" ∧ result.ChipTime ≠ "" then
      isReasonableTimeVariance groupResult.ChipTime result.ChipTime
    else true)

/-- `findBestMatch` (lines 182-222): similarity against the group's first
result's name only, gated by threshold, first name, gender and time. -/
def findBestMatchGo (result : ResultEntry) :
    RunnerGroups → Option (String × ℚ) → ℚ → Option (String × ℚ)
  | [], best, _ => best
  | (runnerId, group) :: rest, best, bestScore =>
    match group with
    | [] => findBestMatchGo result rest best bestScore
    | sampleResult :: _ =>
      let similarity := calculateSimilarity result.Name sampleResult.Name
      if similarity < WARNING_THRESHOLD then findBestMatchGo result rest best bestScore
      else if ¬ firstNameMatches result.Name sampleResult.Name then
        findBestMatchGo result rest best bestScore
      else if ¬ genderOk result sampleResult then findBestMatchGo result rest best bestScore
      else if ¬ checkTimeConsistent result group then findBestMatchGo result rest best bestScore
      else if similarity > bestScore then
        findBestMatchGo result rest (some (runnerId, similarity)) similarity
      else findBestMatchGo result rest best bestScore

/-- `findBestMatch(result, runnerGroups, options)`. -/
def findBestMatch (result : ResultEntry) (runnerGroups : RunnerGroups) :
    Option (String × ℚ) :=
  findBestMatchGo result runnerGroups none 0

/-- `runnerGroups[rid].push(e)`, creating the key at the end of the
iteration order when it is new. -/
def addToGroup (groups : RunnerGroups) (rid : String) (e : ResultEntry) : RunnerGroups :=
  if (groups.find? (fun p => p.1 = rid)).isSome then
    groups.map (fun p => if p.1 = rid then (p.1, p.2 ++ [e]) else p)
  else groups ++ [(rid, [e])]

/-- `categorizeResults` (lines 154-180): group already-tagged entries by
`runner_id` and collect the untagged ones, each stamped with its file's
year.  The input list models the `for (const year in yearFiles)` iteration,
whose integer-like keys are visited in ascending order. -/
def categorizeResults (yearFiles : List (Int × List ResultEntry)) :
    RunnerGroups × List ResultEntry × List String :=
  yearFiles.foldl
    (fun acc yl =>
      yl.2.foldl
        (fun acc2 (r : ResultEntry) =>
          let r' := { r with year := yl.1 }
          match r.runner_id with
          | some rid =>
            (addToGroup acc2.1 rid r', acc2.2.1,
             if rid ∈ acc2.2.2 then acc2.2.2 else acc2.2.2 ++ [rid])
          | none => (acc2.1, acc2.2.1 ++ [r'], acc2.2.2))
        acc)
    ([], [], [])

/-- Last-write-wins lookup in the `runnerIdAssignments` map, keyed by
`` `${year}-${position}` ``. -/
def assignGet (assignments : List ((Int × Int) × String)) (key : Int × Int) : Option String :=
  assignments.foldl (fun acc p => if p.1 = key then some p.2 else acc) none

/-- State threaded through phase 1 (lines 243-270): the (mutated) runner
groups, the assignment map, the warning list and `stillUnassigned`. -/
structure Phase1State where
  groups : RunnerGroups
  assignments : List ((Int × Int) × String)
  warnings : List UncertainMatch
  stillUnassigned : List ResultEntry
deriving Repr

/-- Phase 1: match each unassigned entry against the (growing) groups;
auto-assign pushes the mutated entry into its group and records the
assignment, the warning band records a warning, everything else joins
`stillUnassigned`. -/
def phase1 (confidence : ℚ) (unassignedResults : List ResultEntry)
    (groups0 : RunnerGroups) : Phase1State :=
  unassignedResults.foldl
    (fun st result =>
      match findBestMatch result st.groups with
      | some m =>
        if m.2 ≥ confidence then
          { st with
            groups := addToGroup st.groups m.1 { result with runner_id := some m.1 }
            assignments := st.assignments ++ [((result.year, result.Position), m.1)] }
        else if m.2 ≥ WARNING_THRESHOLD then
          { st with
            warnings := st.warnings ++ [⟨result.year, result.Position, result.Name, m.1, m.2⟩]
            stillUnassigned := st.stillUnassigned ++ [result] }
        else { st with stillUnassigned := st.stillUnassigned ++ [result] }
      | none => { st with stillUnassigned := st.stillUnassigned ++ [result] })
    ⟨groups0, [], [], []⟩

/-- The pair test of phase 2 (lines 285-294): similarity at least the
*auto-assign* threshold, matching first names, genders not
known-and-different. -/
def clusterCheck (confidence : ℚ) (a b : ResultEntry) : Bool :=
  calculateSimilarity a.Name b.Name ≥ confidence
  && firstNameMatches a.Name b.Name
  && genderOk a b

/-- Phase 2 (lines 273-298): greedy grouping of `stillUnassigned` - each
unused entry collects every later unused entry matching it.  The fuel is the
list length (the filtered remainder is strictly shorter, so it always
suffices); fuel keeps the recursion structural. -/
def phase2 (confidence : ℚ) : Nat → List ResultEntry → List (List ResultEntry)
  | 0, _ => []
  | _, [] => []
  | fuel + 1, e :: rest =>
    (e :: rest.filter (clusterCheck confidence e))
      :: phase2 confidence fuel (rest.filter (fun r => ¬ clusterCheck confidence e r))

/-- Phase 3 (lines 300-316): one fresh id per cluster, assigned to every
member; the group of mutated entries is appended to the runner groups. -/
def phase3 (clusters : List (List ResultEntry))
    (st : List String × RunnerGroups × List ((Int × Int) × String)) :
    List String × RunnerGroups × List ((Int × Int) × String) :=
  clusters.foldl
    (fun acc group =>
      match group with
      | [] => acc
      | g0 :: _ =>
        let newId := generateRunnerId g0.Name acc.1 g0.Club
        let withId := group.map (fun r => { r with runner_id := some newId })
        ((if newId ∈ acc.1 then acc.1 else acc.1 ++ [newId]),
         acc.2.1 ++ [(newId, withId)],
         acc.2.2 ++ group.map (fun r => ((r.year, r.Position), newId))))
    st

/-- Phase 4 (lines 318-386): over all key pairs `i < j` of the final runner
groups, skip pairs of two pre-existing runners, and flag pairs whose first
entries have similarity in `[0.80, 1.0)`, matching first names and
compatible genders; the `(year, position)` keys of *every* entry of both
groups are collected into `duplicateResultKeys`. -/
def pairsOf {α : Type} : List α → List (α × α)
  | [] => []
  | x :: rest => rest.map (fun y => (x, y)) ++ pairsOf rest

def phase4 (preExistingIds : List String) (groups : RunnerGroups) : List (Int × Int) :=
  (pairsOf groups).foldl
    (fun keys pq =>
      if pq.1.1 ∈ preExistingIds ∧ pq.2.1 ∈ preExistingIds then keys
      else
        match pq.1.2, pq.2.2 with
        | r1 :: _, r2 :: _ =>
          let similarity := calculateSimilarity r1.Name r2.Name
          if similarity ≥ 80 / 100 ∧ similarity < 1 then
            if ¬ firstNameMatches r1.Name r2.Name then keys
            else if ¬ genderOk r1 r2 then keys
            else keys ++ pq.1.2.map (fun r => (r.year, r.Position))
                      ++ pq.2.2.map (fun r => (r.year, r.Position))
          else keys
        | _, _ => keys)
    []

/-- `writeResults` (lines 410-442): per entry, a key in
`duplicateResultKeys` has its `runner_id` *deleted* (even a pre-existing
one); otherwise a newly recorded assignment is applied; otherwise the entry
is unchanged. -/
def writeResults (yearFiles : List (Int × List ResultEntry))
    (duplicateKeys : List (Int × Int)) (assignments : List ((Int × Int) × String)) :
    List (Int × List ResultEntry) :=
  yearFiles.map (fun yl =>
    (yl.1, yl.2.map (fun r =>
      if (yl.1, r.Position) ∈ duplicateKeys then { r with runner_id := none }
      else
        match assignGet assignments (yl.1, r.Position) with
        | some rid => { r with runner_id := some rid }
        | none => r)))

/-- A full non-dry run of `assign-runner-ids.js`: categorize, match, group,
mint, flag duplicates, and rewrite all year files. -/
def run (yearFiles : List (Int × List ResultEntry)) (confidence : ℚ) :
    List (Int × List ResultEntry) :=
  let cat := categorizeResults yearFiles
  let preExistingIds := cat.2.2
  let st := phase1 confidence cat.2.1 cat.1
  let clusters := phase2 confidence st.stillUnassigned.length st.stillUnassigned
  let minted := phase3 clusters (cat.2.2, st.groups, st.assignments)
  let duplicateKeys := phase4 preExistingIds minted.2.1
  writeResults yearFiles duplicateKeys minted.2.2

end FreshStart

/-! ### `generate-runner-database.js` (src/unnamed/part_005): aggregation -/

namespace GenerateDb

/-- One loaded result as produced by `loadRaceResults` (lines 97-107). -/
structure ProcessedResult where
  year : Int
  position : Int
  name : String
  category : String
  club : String
  runner_id : Option String
  canonical_name : Bool
  canonical_club : Bool
deriving DecidableEq, Repr

/-- `mostCommon` (lines 39-52): count the truthy elements into an object
(whose keys appear in first-occurrence order; all values counted here are
names, clubs or genders, which are non-integer-like strings), then
`reduce((a, b) => counts[a] > counts[b] ? a : b)` - on a tie the later key
wins, so the result is the *last* first-occurring key attaining the maximum
count. -/
def mostCommon (arr : List String) : Option String :=
  let counts := fun k => (arr.filter (fun s => s = k)).length
  match jsDedup (arr.filter (fun s => s ≠ "")) with
  | [] => none
  | k0 :: rest => some (rest.foldl (fun a b => if counts a > counts b then a else b) k0)

/-- Ascending `.sort((a, b) => a - b)` of the deduplicated year list; on the
duplicate-free input any correct sort yields the unique ascending
arrangement. -/
def sortYears (l : List Int) : List Int := l.mergeSort (fun a b => decide (a ≤ b))

/-- The group `runnerResults[rid]` built by the grouping loop
(lines 139-150): pushes preserve input order, so the group is the
order-preserving filter of the input. -/
def runnerResultsFor (rid : String) (allResults : List ProcessedResult) :
    List ProcessedResult :=
  allResults.filter (fun r => r.runner_id = some rid)

/-- The `Runner` aggregate computed for one `runner_id` (lines 155-187). -/
structure RunnerRecord where
  runner_id : String
  canonical_name : String
  canonical_name_manual : Bool
  gender : Option String
  most_common_club : String
  most_common_club_manual : Bool
  years : List Int
  total_races : Nat
deriving DecidableEq, Repr

/-- `processRunners` restricted to one runner id: canonical name and club
from an explicitly flagged entry or by frequency, gender by frequency of the
category-derived genders, `years` the sorted set of years, and
`total_races = years.length`. -/
def processRunner (rid : String) (allResults : List ProcessedResult) : RunnerRecord :=
  let results := runnerResultsFor rid allResults
  let canonicalNameResult := results.find? (fun r => r.canonical_name)
  let nameOpt :=
    match canonicalNameResult with
    | some r => some r.name
    | none => mostCommon (results.map (fun r => r.name))
  let canonicalClubResult := results.find? (fun r => r.canonical_club)
  let clubOpt :=
    match canonicalClubResult with
    | some r => some r.club
    | none => mostCommon ((results.map (fun (r : ProcessedResult) => r.club)).filter (fun c => c ≠ ""))
  let genders := results.filterMap (fun r => (getGender r.category).map (fun c => (⟨[c]⟩ : String)))
  let years := sortYears (jsDedup (results.map (fun r => r.year)))
  { runner_id := rid
    canonical_name := match nameOpt with
      | some s => if s = "" then "Unknown" else s
      | none => "Unknown"
    canonical_name_manual := canonicalNameResult.isSome
    gender := mostCommon genders
    most_common_club := (clubOpt.getD "")
    most_common_club_manual := canonicalClubResult.isSome
    years := years
    total_races := years.length }

end GenerateDb

/-! ### Concrete fixtures used by the claim theorems -/

/-- A default entry used with `List.getD`. -/
def dummyEntry : ResultEntry := ⟨0, "", "", "", "", 0, none⟩

/-- A 2023 entry already resolved to `john-smith` in a previous run. -/
def historicalJohnSmith : ResultEntry := ⟨1, "John Smith", "M40", "", "", 0, some "john-smith"⟩

/-- An unresolved 2024 entry with a similar name (similarity `8/9 ≈ 0.889`). -/
def newJohnSmyth : ResultEntry := ⟨1, "John Smyth", "M40", "", "", 0, none⟩

/-- Two resolved entries of one runner with different names, each occurring
once - a frequency tie. -/
def peAb : GenerateDb.ProcessedResult := ⟨2023, 1, "ab", "M40", "", some "r", false, false⟩

def peCd : GenerateDb.ProcessedResult := ⟨2024, 2, "cd", "M40", "", some "r", false, false⟩

/-- A historical entry of `sam-jones` with no category (unknown gender),
first in its group. -/
def samNoCat : ResultEntry := ⟨1, "Sam Jones", "", "", "", 2022, some "sam-jones"⟩

/-- A historical entry of `sam-jones` with a male category, *not* first in
its group. -/
def samM : ResultEntry := ⟨2, "Sam Jones", "M40", "", "", 2023, some "sam-jones"⟩

/-- An unresolved female entry with the same name. -/
def samF : ResultEntry := ⟨3, "Sam Jones", "F35", "", "", 0, none⟩

/-- A male historical entry of `pat-smith`, head of its group. -/
def patM : ResultEntry := ⟨1, "Pat Smith", "M40", "", "", 2023, some "pat-smith"⟩

/-- A female historical entry of `pat-smyth`. -/
def patSmythF : ResultEntry := ⟨2, "Pat Smyth", "F35", "", "", 2023, some "pat-smyth"⟩

/-- An unresolved female entry named exactly like the male runner. -/
def patF : ResultEntry := ⟨3, "Pat Smith", "F35", "", "", 0, none⟩

/-- Scenario A history: a 2023 entry of `john-smith` with category `M40`
and chip time `0:25:00`. -/
def johnSmith2023 : ResultEntry := ⟨1, "John Smith", "M40", "", "0:25:00", 2023, some "john-smith"⟩

/-- Scenario A new entry: `Jon Smith`, `M40`, `0:25:30`, year 2024. -/
def jonSmith2024 : ResultEntry := ⟨1, "Jon Smith", "M40", "", "0:25:30", 0, none⟩

/-- The plain-ASCII name alphabet: letters, digits and the space. -/
def plainChars : List Char :=
  "abcdefghijklmnopqrstuvwxyzABCDEFGHIJKLMNOPQRSTUVWXYZ0123456789 ".data

unseal Rat.add Rat.sub Rat.mul Rat.inv

/-! ### General lemmas about the embedded primitives -/

theorem mem_jsDedup {α : Type} [DecidableEq α] {a : α} :
    ∀ {l : List α}, a ∈ jsDedup l ↔ a ∈ l := by
  intro l
  induction l with
  | nil => simp [jsDedup]
  | cons x xs ih =>
    simp only [jsDedup, List.mem_cons, List.mem_filter, ih]
    constructor
    · rintro (rfl | ⟨h, _⟩)
      · exact .inl rfl
      · exact .inr h
    · rintro (rfl | h)
      · exact .inl rfl
      · by_cases hx : a = x
        · exact .inl hx
        · exact .inr ⟨h, by simpa using hx⟩

theorem nodup_jsDedup {α : Type} [DecidableEq α] : ∀ (l : List α), (jsDedup l).Nodup := by
  intro l
  induction l with
  | nil => simp [jsDedup]
  | cons x xs ih =>
    simp only [jsDedup, List.nodup_cons]
    refine ⟨?_, ih.filter _⟩
    simp [List.mem_filter]

theorem jsDedup_perm_of_perm {α : Type} [DecidableEq α] {l₁ l₂ : List α}
    (h : l₁.Perm l₂) : (jsDedup l₁).Perm (jsDedup l₂) := by
  refine (List.perm_ext_iff_of_nodup (nodup_jsDedup l₁) (nodup_jsDedup l₂)).2 ?_
  intro a
  rw [mem_jsDedup, mem_jsDedup]
  exact ⟨fun ha => h.mem_iff.1 ha, fun ha => h.mem_iff.2 ha⟩

theorem sortYears_eq_of_perm {l₁ l₂ : List Int} (h : l₁.Perm l₂) :
    GenerateDb.sortYears l₁ = GenerateDb.sortYears l₂ := by
  have hp : (GenerateDb.sortYears l₁).Perm (GenerateDb.sortYears l₂) :=
    ((List.mergeSort_perm l₁ _).trans h).trans (List.mergeSort_perm l₂ _).symm
  have hs₁ : List.Sorted (· ≤ ·) (GenerateDb.sortYears l₁) := by
    have := @List.sorted_mergeSort Int (fun a b => decide (a ≤ b))
      (fun a b c hab hbc => by
        simp only [decide_eq_true_iff] at *; exact le_trans hab hbc)
      (fun a b => by
        simp only [Bool.or_eq_true, decide_eq_true_iff]; exact le_total a b) l₁
    exact this.imp (by simp only [decide_eq_true_iff]; exact fun h => h)
  have hs₂ : List.Sorted (· ≤ ·) (GenerateDb.sortYears l₂) := by
    have := @List.sorted_mergeSort Int (fun a b => decide (a ≤ b))
      (fun a b c hab hbc => by
        simp only [decide_eq_true_iff] at *; exact le_trans hab hbc)
      (fun a b => by
        simp only [Bool.or_eq_true, decide_eq_true_iff]; exact le_total a b) l₂
    exact this.imp (by simp only [decide_eq_true_iff]; exact fun h => h)
  exact List.eq_of_perm_of_sorted hp hs₁ hs₂

theorem mem_sortYears {y : Int} {l : List Int} : y ∈ GenerateDb.sortYears l ↔ y ∈ l :=
  List.mem_mergeSort

theorem nodup_sortYears {l : List Int} (h : l.Nodup) : (GenerateDb.sortYears l).Nodup :=
  (List.mergeSort_perm l _).nodup_iff.2 h

/-! ### Lemmas about decimal rendering and the counter loops -/

theorem natDigitsRev_eq_digits :
    ∀ (fuel n : Nat), 0 < n → n < fuel → natDigitsRev fuel n = Nat.digits 10 n := by
  intro fuel
  induction fuel with
  | zero => intro n _ h; omega
  | succ f ih =>
    intro n hn hlt
    rw [natDigitsRev]
    by_cases h10 : n < 10
    · simp only [h10, if_true]
      rw [Nat.digits_def' (by norm_num) hn, Nat.mod_eq_of_lt h10,
        Nat.div_eq_of_lt h10, Nat.digits_zero]
    · simp only [h10, if_false]
      have hdiv : 0 < n / 10 := Nat.div_pos (by omega) (by norm_num)
      have hlt' : n / 10 < f := by
        have : n / 10 < n := Nat.div_lt_self hn (by norm_num)
        omega
      rw [ih (n / 10) hdiv hlt', Nat.digits_def' (by norm_num) hn]

theorem map_digitChar_inj :
    ∀ (l₁ l₂ : List Nat), (∀ d ∈ l₁, d < 10) → (∀ d ∈ l₂, d < 10) →
      l₁.map Nat.digitChar = l₂.map Nat.digitChar → l₁ = l₂ := by
  have hch : ∀ a, a < 10 → ∀ b, b < 10 → Nat.digitChar a = Nat.digitChar b → a = b := by decide
  intro l₁
  induction l₁ with
  | nil => intro l₂ _ _ h; cases l₂ <;> simp_all
  | cons x xs ih =>
    intro l₂ h₁ h₂ h
    cases l₂ with
    | nil => simp at h
    | cons y ys =>
      simp only [List.map_cons, List.cons.injEq] at h
      have hx := hch x (h₁ x (by simp)) y (h₂ y (by simp)) h.1
      subst hx
      rw [ih ys (fun d hd => h₁ d (by simp [hd])) (fun d hd => h₂ d (by simp [hd])) h.2]

theorem natToChars_inj_pos {m n : Nat} (hm : 0 < m) (hn : 0 < n)
    (h : natToChars m = natToChars n) : m = n := by
  unfold natToChars at h
  have h' := List.reverse_injective h
  rw [natDigitsRev_eq_digits (m + 1) m hm (by omega),
    natDigitsRev_eq_digits (n + 1) n hn (by omega)] at h'
  have hd := map_digitChar_inj _ _
    (fun d hd => Nat.digits_lt_base (by norm_num) hd)
    (fun d hd => Nat.digits_lt_base (by norm_num) hd) h'
  calc m = Nat.ofDigits 10 (Nat.digits 10 m) := (Nat.ofDigits_digits 10 m).symm
    _ = Nat.ofDigits 10 (Nat.digits 10 n) := by rw [hd]
    _ = n := Nat.ofDigits_digits 10 n

theorem mkSuffixId_inj_pos {base : String} {k₁ k₂ : Nat} (h₁ : 0 < k₁) (h₂ : 0 < k₂)
    (h : mkSuffixId base k₁ = mkSuffixId base k₂) : k₁ = k₂ := by
  unfold mkSuffixId at h
  have hdata := congrArg String.data h
  rw [String.data_append, String.data_append] at hdata
  have h2 : natToChars k₁ = natToChars k₂ := List.append_cancel_left hdata
  exact natToChars_inj_pos h₁ h₂ h2

theorem findFreeLoop_not_mem {ids : List String} {f : Nat → String} :
    ∀ (fuel start : Nat), (∃ i, i ≤ fuel ∧ f (start + i) ∉ ids) →
      f (findFreeLoop ids f start fuel) ∉ ids := by
  intro fuel
  induction fuel with
  | zero =>
    intro start ⟨i, hi, hfree⟩
    have : i = 0 := by omega
    subst this
    simpa [findFreeLoop] using hfree
  | succ fu ih =>
    intro start ⟨i, hi, hfree⟩
    rw [findFreeLoop]
    by_cases hmem : f start ∈ ids
    · simp only [hmem, if_true]
      refine ih (start + 1) ?_
      rcases Nat.eq_zero_or_pos i with rfl | hpos
      · simp at hfree; exact absurd hmem hfree
      · exact ⟨i - 1, by omega, by
          have : start + 1 + (i - 1) = start + i := by omega
          rw [this]; exact hfree⟩
    · rw [if_neg hmem]; exact hmem

theorem findFreeLoop_ge {ids : List String} {f : Nat → String} :
    ∀ (fuel start : Nat), start ≤ findFreeLoop ids f start fuel := by
  intro fuel
  induction fuel with
  | zero => intro start; simp [findFreeLoop]
  | succ fu ih =>
    intro start
    rw [findFreeLoop]
    by_cases hmem : f start ∈ ids
    · simp only [hmem, if_true]
      exact le_trans (by omega) (ih (start + 1))
    · simp [hmem]

theorem findFreeLoop_min {ids : List String} {f : Nat → String} :
    ∀ (fuel start k : Nat), start ≤ k → k < findFreeLoop ids f start fuel →
      f k ∈ ids := by
  intro fuel
  induction fuel with
  | zero => intro start k h₁ h₂; simp [findFreeLoop] at h₂; omega
  | succ fu ih =>
    intro start k h₁ h₂
    rw [findFreeLoop] at h₂
    by_cases hmem : f start ∈ ids
    · simp only [hmem, if_true] at h₂
      rcases Nat.eq_or_lt_of_le h₁ with rfl | hlt
      · exact hmem
      · exact ih (start + 1) k hlt h₂
    · simp [hmem] at h₂; omega

theorem exists_free_index (ids : List String) (f : Nat → String)
    (hf : Function.Injective f) : ∃ i, i ≤ ids.length ∧ f i ∉ ids := by
  by_contra hcon
  push_neg at hcon
  have hsub : (Finset.range (ids.length + 1)).image f ⊆ ids.toFinset := by
    intro x hx
    rcases Finset.mem_image.1 hx with ⟨i, hi, rfl⟩
    exact List.mem_toFinset.2 (hcon i (by simpa using Nat.lt_succ_iff.1 (Finset.mem_range.1 hi)))
  have hcard := Finset.card_le_card hsub
  rw [Finset.card_image_of_injective _ hf, Finset.card_range] at hcard
  have := List.toFinset_card_le ids
  omega

theorem mintWithCounter_not_mem (ids : List String) (base : String) (start : Nat)
    (hstart : 1 ≤ start) : mintWithCounter ids base start ∉ ids := by
  have hinj : Function.Injective (fun i => mkSuffixId base (start + i)) := by
    intro i₁ i₂ h
    have := mkSuffixId_inj_pos (by omega) (by omega) h
    omega
  rcases exists_free_index ids _ hinj with ⟨i, hi, hfree⟩
  exact findFreeLoop_not_mem (ids.length + 1) start ⟨i, by omega, hfree⟩

theorem mintWithCounter_minimal (ids : List String) (base : String) (start : Nat) :
    ∀ k, start ≤ k → k < findFreeLoop ids (mkSuffixId base) start (ids.length + 1) →
      mkSuffixId base k ∈ ids :=
  fun k h₁ h₂ => findFreeLoop_min (ids.length + 1) start k h₁ h₂

theorem generateRunnerId_not_mem_newYear (name : String) (ids : List String) (club : String) :
    NewYear.generateRunnerId name ids club ∉ ids := by
  simp only [NewYear.generateRunnerId]
  by_cases h1 : jsTrim name.data = []
  · rw [if_pos h1]; exact mintWithCounter_not_mem ids "unknown-runner" 1 (by omega)
  · rw [if_neg h1]
    by_cases h2 : NewYear.slugOf name = ""
    · rw [if_pos h2]; exact mintWithCounter_not_mem ids "unknown-runner" 1 (by omega)
    · rw [if_neg h2]
      by_cases h3 : NewYear.slugOf name ∉ ids
      · rw [if_pos h3]; exact h3
      · rw [if_neg h3]
        by_cases h4 : club ≠ ""
        · rw [if_pos h4]
          by_cases h5 : (NewYear.slugOf name ++ "-" ++ NewYear.clubFirstToken club) ∉ ids
          · rw [if_pos h5]; exact h5
          · rw [if_neg h5]; exact mintWithCounter_not_mem ids _ 2 (by omega)
        · rw [if_neg h4]; exact mintWithCounter_not_mem ids _ 2 (by omega)

theorem generateRunnerId_not_mem_freshStart (name : String) (ids : List String) (club : String) :
    FreshStart.generateRunnerId name ids club ∉ ids := by
  simp only [FreshStart.generateRunnerId]
  by_cases h1 : jsTrim name.data = []
  · rw [if_pos h1]; exact mintWithCounter_not_mem ids "unknown-runner" 1 (by omega)
  · rw [if_neg h1]
    by_cases h2 : FreshStart.slugOf name = ""
    · rw [if_pos h2]; exact mintWithCounter_not_mem ids "unknown-runner" 1 (by omega)
    · rw [if_neg h2]
      by_cases h3 : FreshStart.slugOf name ∉ ids
      · rw [if_pos h3]; exact h3
      · rw [if_neg h3]
        by_cases h4 : club ≠ ""
        · rw [if_pos h4]
          by_cases h5 : (FreshStart.slugOf name ++ "-" ++ FreshStart.clubFirstToken club) ∉ ids
          · rw [if_pos h5]; exact h5
          · rw [if_neg h5]; exact mintWithCounter_not_mem ids _ 2 (by omega)
        · rw [if_neg h4]; exact mintWithCounter_not_mem ids _ 2 (by omega)

theorem generateRunnerId_not_mem_review (name : String) (ids : List String) (club : String) :
    Review.generateRunnerId name ids club ∉ ids := by
  simp only [Review.generateRunnerId]
  by_cases h1 : Review.normalizeName name = ""
  · rw [if_pos h1]; exact mintWithCounter_not_mem ids "unknown-runner" 1 (by omega)
  · rw [if_neg h1]
    by_cases h2 : (if club ≠ "" then
        let clubPart : String := ⟨(Review.normalizeName club).data.take 10⟩
        if clubPart ≠ "" then Review.normalizeName name ++ "-" ++ clubPart
        else Review.normalizeName name
      else Review.normalizeName name) ∉ ids
    · rw [if_pos h2]; exact h2
    · rw [if_neg h2]; exact mintWithCounter_not_mem ids _ 2 (by omega)

/-! ### Lemmas about phase 3 of `assignIdsToNewYear` -/

theorem NewYear.phase3_length (dp : List Int) :
    ∀ (l : List ResultEntry) (ids : List String),
      ((NewYear.phase3 dp l ids).1).length = l.length := by
  intro l
  induction l with
  | nil => intro ids; simp [NewYear.phase3]
  | cons e rest ih =>
    intro ids
    simp only [NewYear.phase3]
    split_ifs with h
    · simp [ih]
    · simp [ih]

theorem NewYear.phase3_getD_of_some (dp : List Int) :
    ∀ (l : List ResultEntry) (ids : List String) (i : Nat) (rid : String),
      (l.getD i dummyEntry).runner_id = some rid →
      (NewYear.phase3 dp l ids).1.getD i dummyEntry = l.getD i dummyEntry := by
  intro l
  induction l with
  | nil => intro ids i rid h; simp [dummyEntry] at h
  | cons e rest ih =>
    intro ids i rid h
    cases i with
    | zero =>
      simp only [List.getD_cons_zero] at h
      have hcond : ¬ (e.runner_id = none ∧ e.Position ∉ dp) := by
        rintro ⟨hnone, -⟩; rw [hnone] at h; cases h
      simp only [NewYear.phase3, if_neg hcond, List.getD_cons_zero]
    | succ n =>
      simp only [List.getD_cons_succ] at h ⊢
      simp only [NewYear.phase3]
      split_ifs with hcond
      · simpa using ih _ n rid h
      · simpa using ih _ n rid h

theorem NewYear.phase3_getD_mint (dp : List Int) :
    ∀ (l : List ResultEntry) (ids : List String) (i : Nat), i < l.length →
      (l.getD i dummyEntry).runner_id = none →
      (l.getD i dummyEntry).Position ∉ dp →
      ∃ newId, (NewYear.phase3 dp l ids).1.getD i dummyEntry
          = { l.getD i dummyEntry with runner_id := some newId } ∧ newId ∉ ids := by
  intro l
  induction l with
  | nil => intro ids i hi; simp at hi
  | cons e rest ih =>
    intro ids i hi hnone hpos
    cases i with
    | zero =>
      simp only [List.getD_cons_zero] at hnone hpos ⊢
      have hcond : e.runner_id = none ∧ e.Position ∉ dp := ⟨hnone, hpos⟩
      refine ⟨NewYear.generateRunnerId e.Name ids e.Club, ?_, generateRunnerId_not_mem_newYear _ _ _⟩
      simp only [NewYear.phase3, if_pos hcond, List.getD_cons_zero]
    | succ n =>
      simp only [List.getD_cons_succ, List.length_cons] at hnone hpos hi ⊢
      simp only [NewYear.phase3]
      split_ifs with hcond
      · rcases ih (ids ++ [NewYear.generateRunnerId e.Name ids e.Club]) n (by omega) hnone hpos
          with ⟨newId, heq, hfresh⟩
        exact ⟨newId, by simpa using heq, fun hmem => hfresh (List.mem_append_left _ hmem)⟩
      · rcases ih ids n (by omega) hnone hpos with ⟨newId, heq, hfresh⟩
        exact ⟨newId, by simpa using heq, hfresh⟩

/-! ### Claim C1 -/

/-- **C1** (code bug): the claim says a `runner_id` already present before a
run is never changed or removed by automated matching.  The new-year
workflow preserves it, but the fresh-start workflow does not: running
`assign-runner-ids.js` on a 2023 file whose entry is already resolved to
`john-smith` and a 2024 file containing the unresolved similar name
"John Smyth" mints `john-smyth`, then flags the pair `john-smith` /
`john-smyth` as potential duplicates, and `writeResults` *deletes* the
pre-existing `runner_id` of the 2023 entry. -/
theorem fresh_start_deletes_preexisting_runner_id :
    historicalJohnSmith.runner_id = some "john-smith" ∧
    FreshStart.run [(2023, [historicalJohnSmith]), (2024, [newJohnSmyth])] (92 / 100)
      = [(2023, [{ historicalJohnSmith with runner_id := none }]),
         (2024, [{ newJohnSmyth with runner_id := none }])] :=
  ⟨rfl, by decide⟩

/-! ### Claim C2 -/

/-- **C2** (confirmed): for every target-year entry that is unresolved and
whose `(position, name)` key has a recorded disambiguation decision, the
resolver assigns exactly the ledger's `runner_id` - for *every* identity
index and name-change table, so the outcome is independent of fuzzy
matching. -/
theorem ledger_precedence
    (targetYear : Int) (entries : List ResultEntry) (runnerGroups : RunnerGroups)
    (existingIds : List String) (nameChanges : NameChanges) (decisions : List Decision)
    (confidence : ℚ) (i : Nat) (rid : String)
    (hi : i < entries.length)
    (hun : (entries.getD i dummyEntry).runner_id = none)
    (hdec : disambGet decisions (entries.getD i dummyEntry).Position
      (entries.getD i dummyEntry).Name = some rid) :
    ((NewYear.assignIdsToNewYear targetYear entries runnerGroups existingIds nameChanges
      decisions confidence).entries.getD i dummyEntry).runner_id = some rid := by
  have hdec1 : NewYear.phase1Decide targetYear runnerGroups nameChanges decisions confidence
      (entries.getD i dummyEntry) = .disambiguated rid := by
    simp only [NewYear.phase1Decide]
    rw [hun, hdec]
    simp
  have hi' : i < (entries.map (fun e => NewYear.applyPhase1
      (NewYear.phase1Decide targetYear runnerGroups nameChanges decisions confidence e) e)).length := by
    simpa using hi
  have hmap : (entries.map (fun e => NewYear.applyPhase1
        (NewYear.phase1Decide targetYear runnerGroups nameChanges decisions confidence e) e)).getD
        i dummyEntry
      = NewYear.applyPhase1
          (NewYear.phase1Decide targetYear runnerGroups nameChanges decisions confidence
            (entries.getD i dummyEntry))
          (entries.getD i dummyEntry) := by
    rw [List.getD_eq_getElem _ _ hi', List.getElem_map, List.getD_eq_getElem _ _ hi]
  have hsome : ((entries.map (fun e => NewYear.applyPhase1
      (NewYear.phase1Decide targetYear runnerGroups nameChanges decisions confidence e) e)).getD
      i dummyEntry).runner_id = some rid := by
    rw [hmap, hdec1]; rfl
  simp only [NewYear.assignIdsToNewYear]
  rw [NewYear.phase3_getD_of_some _ _ _ _ rid hsome]
  exact hsome

/-- Witness for C2: the spec's Scenario D shape - a ledger decision for
`(position 1, "John Smyth")` overrides the fuzzy candidate `john-smith` and
assigns `sean-murphy-belfast`. -/
theorem ledger_precedence_witness :
    ((NewYear.assignIdsToNewYear 2024 [newJohnSmyth]
        [("john-smith", [historicalJohnSmith])] ["john-smith"] []
        [⟨1, "John Smyth", "sean-murphy-belfast"⟩]
        (92 / 100)).entries.getD 0 dummyEntry).runner_id = some "sean-murphy-belfast" :=
  ledger_precedence 2024 [newJohnSmyth] [("john-smith", [historicalJohnSmith])]
    ["john-smith"] [] [⟨1, "John Smyth", "sean-murphy-belfast"⟩] (92 / 100) 0
    "sean-murphy-belfast" (by decide) (by decide) (by decide)

/-! ### Claim C3 -/

theorem getD_map_applyPhase1 (φ : ResultEntry → NewYear.P1Result)
    (entries : List ResultEntry) (i : Nat) (hi : i < entries.length) :
    (entries.map (fun e => NewYear.applyPhase1 (φ e) e)).getD i dummyEntry
      = NewYear.applyPhase1 (φ (entries.getD i dummyEntry)) (entries.getD i dummyEntry) := by
  rw [List.getD_eq_getElem _ _ (by simpa using hi), List.getElem_map,
    List.getD_eq_getElem _ _ hi]

/-- **C3** (counterexample): an entry whose best gated candidate similarity
lies in `[0.85, 0.92)` is *not* left unresolved as the claim states: the run
below records the uncertain-match warning and then still mints the fresh id
`john-smyth` for the entry in phase 3. -/
theorem warned_entry_minted_counterexample :
    NewYear.findBestMatch 2024 newJohnSmyth [("john-smith", [historicalJohnSmith])] []
      = some ⟨"john-smith", 8 / 9, false⟩ ∧
    WARNING_THRESHOLD ≤ 8 / 9 ∧ (8 / 9 : ℚ) < 92 / 100 ∧
    (NewYear.assignIdsToNewYear 2024 [newJohnSmyth] [("john-smith", [historicalJohnSmith])]
        ["john-smith"] [] [] (92 / 100)).uncertainMatches
      = [⟨2024, 1, "John Smyth", "john-smith", 8 / 9⟩] ∧
    ((NewYear.assignIdsToNewYear 2024 [newJohnSmyth] [("john-smith", [historicalJohnSmith])]
        ["john-smith"] [] [] (92 / 100)).entries.getD 0 dummyEntry).runner_id
      = some "john-smyth" := by
  refine ⟨by decide, by decide, by decide, by decide, by decide⟩

theorem run_mints_helper
    (targetYear : Int) (entries : List ResultEntry) (runnerGroups : RunnerGroups)
    (existingIds : List String) (nameChanges : NameChanges) (decisions : List Decision)
    (confidence : ℚ) (i : Nat)
    (hi : i < entries.length)
    (hnone1 : ((entries.map (fun e => NewYear.applyPhase1
        (NewYear.phase1Decide targetYear runnerGroups nameChanges decisions confidence e) e)).getD
        i dummyEntry).runner_id = none)
    (hpos : ((entries.map (fun e => NewYear.applyPhase1
        (NewYear.phase1Decide targetYear runnerGroups nameChanges decisions confidence e) e)).getD
        i dummyEntry).Position ∉ NewYear.dupPositions
          (NewYear.assignIdsToNewYear targetYear entries runnerGroups existingIds nameChanges
            decisions confidence).duplicatesInNewYear) :
    ∃ newId,
      ((NewYear.assignIdsToNewYear targetYear entries runnerGroups existingIds nameChanges
        decisions confidence).entries.getD i dummyEntry).runner_id = some newId ∧
      newId ∉ existingIds := by
  simp only [NewYear.assignIdsToNewYear] at hpos ⊢
  rcases NewYear.phase3_getD_mint _ _ existingIds i (by simpa using hi) hnone1 hpos
    with ⟨newId, heq, hfresh⟩
  exact ⟨newId, by rw [heq], hfresh⟩

/-- **C3** (amended): for an unresolved, undecided entry, writing `fm` for
its `findBestMatch` result: a candidate at or above the auto threshold is
assigned; a candidate in the warning band is recorded as a warning *and*,
unless the entry is in an intra-year duplicate pair, the entry is still
minted a fresh id (rather than left unresolved); with no gated candidate the
entry is minted a fresh id unless it is in a duplicate pair. -/
theorem threshold_routing
    (targetYear : Int) (entries : List ResultEntry) (runnerGroups : RunnerGroups)
    (existingIds : List String) (nameChanges : NameChanges) (decisions : List Decision)
    (confidence : ℚ) (i : Nat)
    (hi : i < entries.length)
    (hun : (entries.getD i dummyEntry).runner_id = none)
    (hnodec : disambGet decisions (entries.getD i dummyEntry).Position
      (entries.getD i dummyEntry).Name = none) :
    (∀ m, NewYear.findBestMatch targetYear (entries.getD i dummyEntry) runnerGroups nameChanges
        = some m → confidence ≤ m.confidence →
      (((NewYear.assignIdsToNewYear targetYear entries runnerGroups existingIds nameChanges
        decisions confidence).entries.getD i dummyEntry).runner_id = some m.runnerId)) ∧
    (∀ m, NewYear.findBestMatch targetYear (entries.getD i dummyEntry) runnerGroups nameChanges
        = some m → m.confidence < confidence → WARNING_THRESHOLD ≤ m.confidence →
      ((⟨targetYear, (entries.getD i dummyEntry).Position, (entries.getD i dummyEntry).Name,
          m.runnerId, m.confidence⟩ : UncertainMatch)
        ∈ (NewYear.assignIdsToNewYear targetYear entries runnerGroups existingIds nameChanges
            decisions confidence).uncertainMatches ∧
       ((entries.getD i dummyEntry).Position ∉ NewYear.dupPositions
          (NewYear.assignIdsToNewYear targetYear entries runnerGroups existingIds nameChanges
            decisions confidence).duplicatesInNewYear →
        ∃ newId,
          ((NewYear.assignIdsToNewYear targetYear entries runnerGroups existingIds nameChanges
            decisions confidence).entries.getD i dummyEntry).runner_id = some newId ∧
          newId ∉ existingIds))) ∧
    (NewYear.findBestMatch targetYear (entries.getD i dummyEntry) runnerGroups nameChanges
        = none →
      (entries.getD i dummyEntry).Position ∉ NewYear.dupPositions
        (NewYear.assignIdsToNewYear targetYear entries runnerGroups existingIds nameChanges
          decisions confidence).duplicatesInNewYear →
      ∃ newId,
        ((NewYear.assignIdsToNewYear targetYear entries runnerGroups existingIds nameChanges
          decisions confidence).entries.getD i dummyEntry).runner_id = some newId ∧
        newId ∉ existingIds) := by
  have hmem : entries.getD i dummyEntry ∈ entries := by
    rw [List.getD_eq_getElem _ _ hi]; exact List.getElem_mem hi
  refine ⟨?_, ?_, ?_⟩
  · intro m hfm hconf
    have hdec1 : NewYear.phase1Decide targetYear runnerGroups nameChanges decisions confidence
        (entries.getD i dummyEntry) = .auto m := by
      simp only [NewYear.phase1Decide]
      rw [hun, hnodec, hfm]
      simp [hconf]
    have hsome : ((entries.map (fun e => NewYear.applyPhase1
        (NewYear.phase1Decide targetYear runnerGroups nameChanges decisions confidence e) e)).getD
        i dummyEntry).runner_id = some m.runnerId := by
      rw [getD_map_applyPhase1 _ _ _ hi, hdec1]; rfl
    simp only [NewYear.assignIdsToNewYear]
    rw [NewYear.phase3_getD_of_some _ _ _ _ m.runnerId hsome]
    exact hsome
  · intro m hfm hlt hge
    have hdec1 : NewYear.phase1Decide targetYear runnerGroups nameChanges decisions confidence
        (entries.getD i dummyEntry) = .warned m := by
      simp only [NewYear.phase1Decide]
      rw [hun, hnodec, hfm]
      simp [not_le.2 hlt, hge]
    have hkeep : (entries.map (fun e => NewYear.applyPhase1
        (NewYear.phase1Decide targetYear runnerGroups nameChanges decisions confidence e) e)).getD
        i dummyEntry = entries.getD i dummyEntry := by
      rw [getD_map_applyPhase1 _ _ _ hi, hdec1]; rfl
    constructor
    · simp only [NewYear.assignIdsToNewYear]
      refine List.mem_filterMap.2 ⟨entries.getD i dummyEntry, hmem, ?_⟩
      rw [hdec1]
    · intro hpos
      exact run_mints_helper targetYear entries runnerGroups existingIds nameChanges decisions
        confidence i hi (by rw [hkeep]; exact hun) (by rw [hkeep]; exact hpos)
  · intro hfm hpos
    have hdec1 : NewYear.phase1Decide targetYear runnerGroups nameChanges decisions confidence
        (entries.getD i dummyEntry) = .unmatched := by
      simp only [NewYear.phase1Decide]
      rw [hun, hnodec, hfm]
      simp
    have hkeep : (entries.map (fun e => NewYear.applyPhase1
        (NewYear.phase1Decide targetYear runnerGroups nameChanges decisions confidence e) e)).getD
        i dummyEntry = entries.getD i dummyEntry := by
      rw [getD_map_applyPhase1 _ _ _ hi, hdec1]; rfl
    exact run_mints_helper targetYear entries runnerGroups existingIds nameChanges decisions
      confidence i hi (by rw [hkeep]; exact hun) (by rw [hkeep]; exact hpos)

/-- Witness for C3: in the warned scenario the warning for `john-smith` at
confidence `8/9` is recorded and the entry is nevertheless minted a fresh
id. -/
theorem threshold_routing_witness :
    (⟨2024, 1, "John Smyth", "john-smith", 8 / 9⟩ : UncertainMatch)
      ∈ (NewYear.assignIdsToNewYear 2024 [newJohnSmyth]
          [("john-smith", [historicalJohnSmith])] ["john-smith"] [] []
          (92 / 100)).uncertainMatches ∧
    ∃ newId,
      ((NewYear.assignIdsToNewYear 2024 [newJohnSmyth]
          [("john-smith", [historicalJohnSmith])] ["john-smith"] [] []
          (92 / 100)).entries.getD 0 dummyEntry).runner_id = some newId ∧
      newId ∉ ["john-smith"] := by
  have h := threshold_routing 2024 [newJohnSmyth] [("john-smith", [historicalJohnSmith])]
    ["john-smith"] [] [] (92 / 100) 0 (by decide) (by decide) (by decide)
  obtain ⟨hw, hm⟩ := h.2.1 ⟨"john-smith", 8 / 9, false⟩ (by decide) (by decide) (by decide)
  exact ⟨hw, hm (by decide)⟩

/-! ### Claim C4 -/

/-- **C4** (counterexample): the aggregation is *not* permutation-invariant
when name frequencies tie: swapping the two entries changes the runner's
`canonical_name` (the `mostCommon` reduce keeps the later key on ties, and
key order follows first occurrence). -/
theorem aggregation_tie_depends_on_order :
    ([peAb, peCd] : List GenerateDb.ProcessedResult).Perm [peCd, peAb] ∧
    (GenerateDb.processRunner "r" [peAb, peCd]).canonical_name = "cd" ∧
    (GenerateDb.processRunner "r" [peCd, peAb]).canonical_name = "ab" ∧
    (GenerateDb.processRunner "r" [peAb, peCd]).canonical_name
      ≠ (GenerateDb.processRunner "r" [peCd, peAb]).canonical_name :=
  ⟨by decide, by decide, by decide, by decide⟩

/-- **C4** (amended): for every permutation of the input entry order the
recomputed `years` list and `total_races` count of every `runner_id` are
unchanged (the `canonical_name`, club and gender fields are only stable in
the absence of frequency ties, see the counterexample). -/
theorem aggregation_years_permutation_invariant
    (l₁ l₂ : List GenerateDb.ProcessedResult) (h : l₁.Perm l₂) (rid : String) :
    (GenerateDb.processRunner rid l₁).years = (GenerateDb.processRunner rid l₂).years ∧
    (GenerateDb.processRunner rid l₁).total_races
      = (GenerateDb.processRunner rid l₂).total_races := by
  have hy : GenerateDb.sortYears (jsDedup ((GenerateDb.runnerResultsFor rid l₁).map
        (fun r => r.year)))
      = GenerateDb.sortYears (jsDedup ((GenerateDb.runnerResultsFor rid l₂).map
        (fun r => r.year))) :=
    sortYears_eq_of_perm (jsDedup_perm_of_perm ((h.filter _).map _))
  constructor
  · simp only [GenerateDb.processRunner]
    exact hy
  · simp only [GenerateDb.processRunner]
    exact congrArg List.length hy

/-- Witness for C4: the tie-breaking counterexample's two orders still agree
on `years` and `total_races`. -/
theorem aggregation_years_permutation_invariant_witness :
    (GenerateDb.processRunner "r" [peAb, peCd]).years
      = (GenerateDb.processRunner "r" [peCd, peAb]).years ∧
    (GenerateDb.processRunner "r" [peAb, peCd]).total_races
      = (GenerateDb.processRunner "r" [peCd, peAb]).total_races :=
  aggregation_years_permutation_invariant [peAb, peCd] [peCd, peAb] (by decide) "r"

/-! ### Claim C5 -/

/-- **C5** (counterexample): the claim says two entries with known,
differing genders are never matched, *including when the differing-gender
historical entry is not the first entry of its runner's group*.  But the
gender gate only inspects the group's first entry: here the female entry is
auto-assigned to `sam-jones` although the group's second entry is male. -/
theorem gender_gate_head_only_counterexample :
    getGender samF.Category = some 'F' ∧
    getGender samM.Category = some 'M' ∧
    samM ∈ [samNoCat, samM] ∧
    (NewYear.assignIdsToNewYear 2024 [samF] [("sam-jones", [samNoCat, samM])]
        ["sam-jones"] [] [] (92 / 100)).entries
      = [{ samF with runner_id := some "sam-jones" }] :=
  ⟨by decide, by decide, by decide, by decide⟩

theorem findBestMatchGo_avoids
    (targetYear : Int) (result : ResultEntry) (nameChanges : NameChanges) (rid : String) :
    ∀ (groups : RunnerGroups) (best : Option MatchResult) (score : ℚ),
      (∀ p ∈ groups, p.1 = rid → ∀ sample grest, p.2 = sample :: grest →
        NewYear.genderOk result sample = false) →
      (∀ m, best = some m → m.runnerId ≠ rid) →
      ∀ m, NewYear.findBestMatchGo targetYear result nameChanges groups best score = some m →
        m.runnerId ≠ rid := by
  intro groups
  induction groups with
  | nil =>
    intro best score _ hbest m hm
    exact hbest m hm
  | cons p rest ih =>
    rcases p with ⟨r, g⟩
    intro best score hconf hbest m hm
    have hrest : ∀ p ∈ rest, p.1 = rid → ∀ sample grest, p.2 = sample :: grest →
        NewYear.genderOk result sample = false :=
      fun p hp => hconf p (List.mem_cons_of_mem _ hp)
    cases g with
    | nil => exact ih best score hrest hbest m hm
    | cons sample grest =>
      simp only [NewYear.findBestMatchGo] at hm
      by_cases hnc : NewYear.knownNameChangeHit targetYear nameChanges result r sample
          (sample :: grest) = true
      · rw [if_pos hnc] at hm
        cases hm
        intro hr
        have hg : NewYear.genderOk result sample = false :=
          hconf (r, sample :: grest) (List.mem_cons_self _ _) hr sample grest rfl
        rcases List.any_eq_true.1
          ((by
            revert hnc
            simp only [NewYear.knownNameChangeHit]
            cases jsObjGet nameChanges r with
            | none => intro h; cases h
            | some names => intro h; exact h) :
            (match jsObjGet nameChanges r with
             | none => ([] : List String)
             | some names => names).any (fun knownName =>
              NewYear.normalizeName result.Name = NewYear.normalizeName knownName
              && NewYear.genderOk result sample
              && NewYear.checkTimeConsistent targetYear result (sample :: grest)) = true)
          with ⟨kn, _, hish⟩
        simp only [Bool.and_eq_true] at hish
        rw [hg] at hish
        exact absurd hish.1.2 (by simp)
      · rw [if_neg hnc] at hm
        by_cases h1 : (NewYear.bestAmongNames result.Name
            (jsDedup ((sample :: grest).map (·.Name)))).1 < WARNING_THRESHOLD
        · rw [if_pos h1] at hm
          exact ih best score hrest hbest m hm
        · rw [if_neg h1] at hm
          by_cases h2 : ¬ firstNameMatches result.Name
              ((NewYear.bestAmongNames result.Name
                (jsDedup ((sample :: grest).map (·.Name)))).2.getD "") = true
          · rw [if_pos h2] at hm
            exact ih best score hrest hbest m hm
          · rw [if_neg h2] at hm
            by_cases h3 : ¬ NewYear.genderOk result sample = true
            · rw [if_pos h3] at hm
              exact ih best score hrest hbest m hm
            · rw [if_neg h3] at hm
              have hrne : r ≠ rid := by
                intro hr
                have hg : NewYear.genderOk result sample = false :=
                  hconf (r, sample :: grest) (List.mem_cons_self _ _) hr sample grest rfl
                rw [hg] at h3
                exact h3 (by simp)
              by_cases h4 : ¬ NewYear.checkTimeConsistent targetYear result
                  (sample :: grest) = true
              · rw [if_pos h4] at hm
                exact ih best score hrest hbest m hm
              · rw [if_neg h4] at hm
                by_cases h5 : (NewYear.bestAmongNames result.Name
                    (jsDedup ((sample :: grest).map (·.Name)))).1 > score
                · rw [if_pos h5] at hm
                  exact ih _ _ hrest (fun m' hm' => by
                    cases hm'; exact hrne) m hm
                · rw [if_neg h5] at hm
                  exact ih best score hrest hbest m hm

/-- **C5** (amended): the gender gate only compares against the *first*
entry of a candidate runner's group.  For every runner whose group head's
gender is known and differs from the entry's known gender, `findBestMatch`
never returns that runner - so it is neither auto-assigned nor suggested in
a warning - regardless of similarity; a differing-gender entry deeper in the
group does not block the match (see the counterexample). -/
theorem gender_gate_blocks_group_head
    (targetYear : Int) (result : ResultEntry) (nameChanges : NameChanges)
    (groups : RunnerGroups) (rid : String) (sample : ResultEntry)
    (grest : List ResultEntry) (g1 g2 : Char)
    (hmem : (rid, sample :: grest) ∈ groups)
    (hkeys : (groups.map Prod.fst).Nodup)
    (hg1 : getGender result.Category = some g1)
    (hg2 : getGender sample.Category = some g2)
    (hne : g1 ≠ g2) :
    ∀ m, NewYear.findBestMatch targetYear result groups nameChanges = some m →
      m.runnerId ≠ rid := by
  have hconf : ∀ p ∈ groups, p.1 = rid → ∀ s g, p.2 = s :: g →
      NewYear.genderOk result s = false := by
    intro p hp hpr s g hsg
    have : p = (rid, sample :: grest) :=
      List.inj_on_of_nodup_map hkeys hp hmem (by rw [hpr])
    rw [this] at hsg
    simp only at hsg
    have hs : sample = s := (List.cons.injEq _ _ _ _ ▸ hsg).1
    rw [← hs]
    simp only [NewYear.genderOk, hg1, hg2]
    simp [hne]
  exact findBestMatchGo_avoids targetYear result nameChanges rid groups none 0 hconf
    (fun m hm => by cases hm)

/-- Witness for C5: despite the perfect name match with `pat-smith`, the
female entry's best match is `pat-smyth`, and the theorem rules out
`pat-smith`. -/
theorem gender_gate_blocks_group_head_witness :
    (⟨"pat-smyth", 7 / 8, false⟩ : MatchResult).runnerId ≠ "pat-smith" :=
  gender_gate_blocks_group_head 2024 patF []
    [("pat-smith", [patM]), ("pat-smyth", [patSmythF])] "pat-smith" patM [] 'F' 'M'
    (by decide) (by decide) (by decide) (by decide) (by decide)
    ⟨"pat-smyth", 7 / 8, false⟩ (by decide)

/-! ### Claim C6 -/

/-- **C6** (counterexample): the claim says the 2024 entry `Jon Smith` is
auto-assigned `john-smith` and that the first-name gate passes on
"jon" vs "joh".  In fact `firstNameMatches` compares `"jon"` with `"joh"`
and fails, so the candidate is rejected and the entry is *not* assigned
`john-smith`. -/
theorem scenario_a_counterexample :
    firstNameMatches "Jon Smith" "John Smith" = false ∧
    ((NewYear.assignIdsToNewYear 2024 [jonSmith2024] [("john-smith", [johnSmith2023])]
        ["john-smith"] [] [] (92 / 100)).entries.getD 0 dummyEntry).runner_id
      ≠ some "john-smith" :=
  ⟨by decide, by decide⟩

/-- **C6** (amended): with that history, processing `Jon Smith` finds no
gated candidate at all (the first-name gate rejects "jon" vs "joh" before
similarity is trusted), produces no warning, and mints the fresh id
`jon-smith` for the entry. -/
theorem scenario_a_minted_new_id :
    NewYear.findBestMatch 2024 jonSmith2024 [("john-smith", [johnSmith2023])] [] = none ∧
    (NewYear.assignIdsToNewYear 2024 [jonSmith2024] [("john-smith", [johnSmith2023])]
        ["john-smith"] [] [] (92 / 100)).uncertainMatches = [] ∧
    (NewYear.assignIdsToNewYear 2024 [jonSmith2024] [("john-smith", [johnSmith2023])]
        ["john-smith"] [] [] (92 / 100)).entries
      = [{ jonSmith2024 with runner_id := some "jon-smith" }] :=
  ⟨by decide, by decide, by decide⟩

/-! ### Claim C7 -/

theorem levRow_bound (x : Char) (i : Nat) :
    ∀ (ys : List Char) (prev : List Nat) (left j0 : Nat),
      (∀ k, prev.getD k 0 ≤ max i (j0 + k)) → left ≤ max (i + 1) j0 →
      ∀ k, (levRow x ys prev left).getD k 0 ≤ max (i + 1) (j0 + 1 + k) := by
  intro ys
  induction ys with
  | nil => intro prev left j0 _ _ k; simp [levRow]
  | cons y ys ih =>
    intro prev left j0 hprev hleft k
    cases prev with
    | nil => simp [levRow]
    | cons pPrev pRest =>
      simp only [levRow]
      have hcell : min (pRest.headD 0 + 1)
          (min (left + 1) (pPrev + if x = y then 0 else 1)) ≤ max (i + 1) (j0 + 1) := by
        have h1 : pPrev ≤ max i j0 := by simpa using hprev 0
        have h2 : (if x = y then 0 else 1) ≤ 1 := by split_ifs <;> omega
        have h3 : min (pRest.headD 0 + 1)
            (min (left + 1) (pPrev + if x = y then 0 else 1))
            ≤ pPrev + if x = y then 0 else 1 :=
          le_trans (min_le_right _ _) (min_le_right _ _)
        omega
      cases k with
      | zero => simpa using hcell
      | succ k =>
        simp only [List.getD_cons_succ]
        have hprev' : ∀ k, pRest.getD k 0 ≤ max i (j0 + 1 + k) := by
          intro k
          have hk := hprev (k + 1)
          rw [List.getD_cons_succ] at hk
          have harith : j0 + (k + 1) = j0 + 1 + k := by omega
          rw [harith] at hk
          exact hk
        have hres := ih pRest _ (j0 + 1) hprev' hcell k
        have harith : j0 + 1 + (k + 1) = j0 + 1 + 1 + k := by omega
        rw [harith]
        exact hres

theorem levFold_bound (str2 : List Char) :
    ∀ (str1 : List Char) (prev : List Nat) (i : Nat),
      (∀ k, prev.getD k 0 ≤ max i k) →
      ∀ k, ((str1.foldl (levStep str2) (prev, i)).1).getD k 0 ≤ max (i + str1.length) k := by
  intro str1
  induction str1 with
  | nil => intro prev i h k; simpa using h k
  | cons x xs ih =>
    intro prev i h k
    have hrow : ∀ k, ((i + 1) :: levRow x str2 prev (i + 1)).getD k 0 ≤ max (i + 1) k := by
      intro k
      cases k with
      | zero => simp
      | succ k =>
        rw [List.getD_cons_succ]
        have hres := levRow_bound x i str2 prev (i + 1) 0 (by simpa using h) (by simp) k
        have harith : (0 : Nat) + 1 + k = k + 1 := by omega
        rw [harith] at hres
        exact hres
    have hres := ih ((i + 1) :: levRow x str2 prev (i + 1)) (i + 1) hrow k
    simp only [List.foldl_cons, levStep]
    have harith : i + 1 + xs.length = i + (xs.length + 1) := by omega
    rw [harith] at hres
    simpa using hres

/-- The DP value is bounded by the length of the longer string. -/
theorem levenshteinDistance_le_max (str1 str2 : List Char) :
    levenshteinDistance str1 str2 ≤ max str1.length str2.length := by
  simp only [levenshteinDistance]
  split_ifs with h1 h2
  · simp
  · simp
  · have hinit : ∀ k, (List.range (str2.length + 1)).getD k 0 ≤ max 0 k := by
      intro k
      by_cases hk : k < str2.length + 1
      · rw [List.getD_eq_getElem _ _ (by simpa using hk), List.getElem_range]
        omega
      · rw [List.getD_eq_default _ _ (by simpa using Nat.le_of_not_lt hk)]
        omega
    have hres := levFold_bound str2 str1 (List.range (str2.length + 1)) 0 hinit str2.length
    simpa using hres

theorem levenshteinDistance_nil_left (t : List Char) :
    levenshteinDistance [] t = t.length := by
  simp [levenshteinDistance]

theorem levenshteinDistance_nil_right (s : List Char) (hs : s.length ≠ 0) :
    levenshteinDistance s [] = s.length := by
  simp only [levenshteinDistance, List.length_nil]
  rw [if_neg hs]
  simp

/-- **C7** (confirmed): over the exact-rational model of the score,
`calculateSimilarity` is `1` exactly on identically-normalizing names,
equals `1 − levenshtein/maxLength` whenever the normalized names differ (and
the divisor is then nonzero), is `0` when exactly one normalized name is
empty, and always lies in `[0, 1]`. -/
theorem calculateSimilarity_spec (name1 name2 : String) :
    0 ≤ NewYear.calculateSimilarity name1 name2 ∧
    NewYear.calculateSimilarity name1 name2 ≤ 1 ∧
    (NewYear.normalizeName name1 = NewYear.normalizeName name2 →
      NewYear.calculateSimilarity name1 name2 = 1) ∧
    (NewYear.normalizeName name1 ≠ NewYear.normalizeName name2 →
      0 < max (NewYear.normalizeName name1).data.length
          (NewYear.normalizeName name2).data.length ∧
      NewYear.calculateSimilarity name1 name2
        = 1 - (levenshteinDistance (NewYear.normalizeName name1).data
              (NewYear.normalizeName name2).data : ℚ)
            / ((max (NewYear.normalizeName name1).data.length
              (NewYear.normalizeName name2).data.length : Nat) : ℚ)) ∧
    ((NewYear.normalizeName name1 = "" ∧ NewYear.normalizeName name2 ≠ "") ∨
     (NewYear.normalizeName name1 ≠ "" ∧ NewYear.normalizeName name2 = "") →
      NewYear.calculateSimilarity name1 name2 = 0) := by
  by_cases h : NewYear.normalizeName name1 = NewYear.normalizeName name2
  · have h1 : NewYear.calculateSimilarity name1 name2 = 1 := by
      simp only [NewYear.calculateSimilarity, if_pos h]
    refine ⟨by rw [h1]; norm_num, le_of_eq h1, fun _ => h1, fun hne => absurd h hne, ?_⟩
    rintro (⟨he, hne⟩ | ⟨hne, he⟩)
    · exact absurd (he ▸ h).symm hne
    · exact absurd (he ▸ h) hne
  · have hform : NewYear.calculateSimilarity name1 name2
        = 1 - (levenshteinDistance (NewYear.normalizeName name1).data
              (NewYear.normalizeName name2).data : ℚ)
            / ((max (NewYear.normalizeName name1).data.length
              (NewYear.normalizeName name2).data.length : Nat) : ℚ) := by
      simp only [NewYear.calculateSimilarity, if_neg h]
    have hmax : 0 < max (NewYear.normalizeName name1).data.length
        (NewYear.normalizeName name2).data.length := by
      by_contra hz
      push_neg at hz
      have h1 : (NewYear.normalizeName name1).data = [] :=
        List.length_eq_zero.1 (by omega)
      have h2 : (NewYear.normalizeName name2).data = [] :=
        List.length_eq_zero.1 (by omega)
      exact h (String.ext (h1.trans h2.symm))
    have hle := levenshteinDistance_le_max (NewYear.normalizeName name1).data
      (NewYear.normalizeName name2).data
    have hmaxq : (0 : ℚ) < ((max (NewYear.normalizeName name1).data.length
        (NewYear.normalizeName name2).data.length : Nat) : ℚ) := by
      exact_mod_cast hmax
    have hfrac0 : (0 : ℚ) ≤ (levenshteinDistance (NewYear.normalizeName name1).data
        (NewYear.normalizeName name2).data : ℚ)
        / ((max (NewYear.normalizeName name1).data.length
          (NewYear.normalizeName name2).data.length : Nat) : ℚ) :=
      div_nonneg (by positivity) (le_of_lt hmaxq)
    have hfrac1 : (levenshteinDistance (NewYear.normalizeName name1).data
        (NewYear.normalizeName name2).data : ℚ)
        / ((max (NewYear.normalizeName name1).data.length
          (NewYear.normalizeName name2).data.length : Nat) : ℚ) ≤ 1 :=
      (div_le_one hmaxq).2 (by exact_mod_cast hle)
    refine ⟨by rw [hform]; linarith, by rw [hform]; linarith, fun he => absurd he h,
      fun _ => ⟨hmax, hform⟩, ?_⟩
    rintro (⟨he, hne⟩ | ⟨hne, he⟩)
    · have hdata : (NewYear.normalizeName name1).data = [] := by rw [he]
      have hlen2 : (NewYear.normalizeName name2).data.length ≠ 0 := by
        intro hz
        exact hne (String.ext (List.length_eq_zero.1 hz))
      rw [hform, hdata, levenshteinDistance_nil_left]
      simp only [List.length_nil, Nat.zero_max]
      rw [div_self (show ((NewYear.normalizeName name2).data.length : ℚ) ≠ 0 by
        exact_mod_cast hlen2)]
      ring
    · have hdata : (NewYear.normalizeName name2).data = [] := by rw [he]
      have hlen1 : (NewYear.normalizeName name1).data.length ≠ 0 := by
        intro hz
        exact hne (String.ext (List.length_eq_zero.1 hz))
      rw [hform, hdata, levenshteinDistance_nil_right _ hlen1]
      simp only [List.length_nil, Nat.max_zero]
      rw [div_self (show ((NewYear.normalizeName name1).data.length : ℚ) ≠ 0 by
        exact_mod_cast hlen1)]
      ring

/-- Witness for C7: identically-normalizing names score exactly `1`, and a
pair with exactly one empty normalized name scores `0`. -/
theorem calculateSimilarity_spec_witness :
    NewYear.calculateSimilarity "Ann" "Ann" = 1 ∧
    NewYear.calculateSimilarity "" "Bob" = 0 :=
  ⟨(calculateSimilarity_spec "Ann" "Ann").2.2.1 (by decide),
   (calculateSimilarity_spec "" "Bob").2.2.2.2 (Or.inl ⟨by decide, by decide⟩)⟩

/-! ### Claim C8 -/

/-- **C8** (counterexample): the claim's chain says mint "returns the
hyphenated name slug if free".  The `review-warnings.js` variant of
`generateRunnerId` (one of the claim's sources) does not: with an *empty*
`existingIds` and a club present it returns the unhyphenated,
club-qualified `paulsmith-omaghharri` instead of the free hyphenated slug
`paul-smith`. -/
theorem review_mint_ignores_free_slug :
    NewYear.slugOf "Paul Smith" = "paul-smith" ∧
    "paul-smith" ∉ ([] : List String) ∧
    Review.generateRunnerId "Paul Smith" [] "Omagh Harriers" = "paulsmith-omaghharri" ∧
    Review.generateRunnerId "Paul Smith" [] "Omagh Harriers" ≠ "paul-smith" :=
  ⟨by decide, by decide, by decide, by decide⟩

/-- **C8** (amended): the matcher's mint (`generateRunnerId` of
`assign-ids-to-new-year.js`) satisfies the claimed chain: the result is
never in `existingIds`; for a non-blank name it is the hyphenated slug when
free, else the club-qualified slug when a club is present and that is free,
else the slug with the smallest free integer suffix starting at 2; a
blank/unparseable name gets `unknown-runner-N` for the smallest free `N`
starting at 1. -/
theorem generateRunnerId_chain (name : String) (existingIds : List String) (club : String) :
    NewYear.generateRunnerId name existingIds club ∉ existingIds ∧
    (jsTrim name.data ≠ [] → NewYear.slugOf name ≠ "" →
      ((NewYear.slugOf name ∉ existingIds →
          NewYear.generateRunnerId name existingIds club = NewYear.slugOf name) ∧
       (NewYear.slugOf name ∈ existingIds → club ≠ "" →
          (NewYear.slugOf name ++ "-" ++ NewYear.clubFirstToken club) ∉ existingIds →
          NewYear.generateRunnerId name existingIds club
            = NewYear.slugOf name ++ "-" ++ NewYear.clubFirstToken club) ∧
       (NewYear.slugOf name ∈ existingIds →
          (club = "" ∨ (NewYear.slugOf name ++ "-" ++ NewYear.clubFirstToken club) ∈ existingIds) →
          ∃ k, 2 ≤ k ∧
            NewYear.generateRunnerId name existingIds club
              = mkSuffixId (NewYear.slugOf name) k ∧
            mkSuffixId (NewYear.slugOf name) k ∉ existingIds ∧
            ∀ j, 2 ≤ j → j < k → mkSuffixId (NewYear.slugOf name) j ∈ existingIds))) ∧
    (jsTrim name.data = [] ∨ NewYear.slugOf name = "" →
      ∃ n, 1 ≤ n ∧
        NewYear.generateRunnerId name existingIds club = mkSuffixId "unknown-runner" n ∧
        mkSuffixId "unknown-runner" n ∉ existingIds ∧
        ∀ j, 1 ≤ j → j < n → mkSuffixId "unknown-runner" j ∈ existingIds) := by
  refine ⟨generateRunnerId_not_mem_newYear name existingIds club, ?_, ?_⟩
  · intro htrim hslug
    refine ⟨?_, ?_, ?_⟩
    · intro hfree
      simp only [NewYear.generateRunnerId]
      rw [if_neg htrim, if_neg hslug, if_pos hfree]
    · intro htaken hclub hfreeclub
      simp only [NewYear.generateRunnerId]
      rw [if_neg htrim, if_neg hslug, if_neg (not_not_intro htaken), if_pos hclub,
        if_pos hfreeclub]
    · intro htaken hrest
      refine ⟨findFreeLoop existingIds (mkSuffixId (NewYear.slugOf name)) 2
          (existingIds.length + 1), findFreeLoop_ge _ _, ?_, ?_, ?_⟩
      · rcases hrest with hc | hcl
        · simp only [NewYear.generateRunnerId]
          rw [if_neg htrim, if_neg hslug, if_neg (not_not_intro htaken),
            if_neg (not_not_intro hc)]
          rfl
        · by_cases hclub : club = ""
          · simp only [NewYear.generateRunnerId]
            rw [if_neg htrim, if_neg hslug, if_neg (not_not_intro htaken),
              if_neg (not_not_intro hclub)]
            rfl
          · simp only [NewYear.generateRunnerId]
            rw [if_neg htrim, if_neg hslug, if_neg (not_not_intro htaken), if_pos hclub,
              if_neg (not_not_intro hcl)]
            rfl
      · exact mintWithCounter_not_mem existingIds (NewYear.slugOf name) 2 (by omega)
      · exact fun j h2 hk => findFreeLoop_min _ _ j h2 hk
  · intro hor
    refine ⟨findFreeLoop existingIds (mkSuffixId "unknown-runner") 1
        (existingIds.length + 1), findFreeLoop_ge _ _, ?_, ?_, ?_⟩
    · by_cases htrim : jsTrim name.data = []
      · simp only [NewYear.generateRunnerId]
        rw [if_pos htrim]
        rfl
      · have hslug : NewYear.slugOf name = "" := by
          rcases hor with hc | hc
          · exact absurd hc htrim
          · exact hc
        simp only [NewYear.generateRunnerId]
        rw [if_neg htrim, if_pos hslug]
        rfl
    · exact mintWithCounter_not_mem existingIds "unknown-runner" 1 (by omega)
    · exact fun j h1 hk => findFreeLoop_min _ _ j h1 hk

/-- Witness for C8 and the spec's Scenario E: minting "Paul O'Neill" with
`paul-oneill` taken and club "Omagh Harriers" yields `paul-oneill-omagh`,
not `paul-oneill-2`. -/
theorem generateRunnerId_chain_witness :
    NewYear.generateRunnerId "Paul O'Neill" ["paul-oneill"] "Omagh Harriers"
      = "paul-oneill-omagh" ∧
    NewYear.generateRunnerId "Paul O'Neill" ["paul-oneill"] "Omagh Harriers"
      ≠ "paul-oneill-2" := by
  have h := ((generateRunnerId_chain "Paul O'Neill" ["paul-oneill"] "Omagh Harriers").2.1
    (by decide) (by decide)).2.1 (by decide) (by decide) (by decide)
  constructor
  · rw [h]; decide
  · rw [h]; decide

/-! ### Claim C9 -/

/-- **C9** (counterexample): the three `normalizeName` functions are not
extensionally equal: the fresh-start variant does not fold accents
(`"José"`), and the review variant strips apostrophes while the other two
keep them (`"O'Neill"`). -/
theorem normalizeName_three_variants_differ :
    NewYear.normalizeName "José" = "jose" ∧
    FreshStart.normalizeName "José" = "josé" ∧
    Review.normalizeName "José" = "jose" ∧
    FreshStart.normalizeName "José" ≠ NewYear.normalizeName "José" ∧
    NewYear.normalizeName "O'Neill" = "o'neill" ∧
    Review.normalizeName "O'Neill" = "oneill" ∧
    Review.normalizeName "O'Neill" ≠ NewYear.normalizeName "O'Neill" :=
  ⟨by decide, by decide, by decide, by decide, by decide, by decide, by decide⟩

theorem stripWs_dropWhile (l : List Char) :
    stripWs (l.dropWhile isJsWhitespace) = stripWs l := by
  induction l with
  | nil => rfl
  | cons c rest ih =>
    by_cases hc : isJsWhitespace c = true
    · rw [List.dropWhile_cons_of_pos hc, ih]
      simp [stripWs, hc]
    · rw [List.dropWhile_cons_of_neg hc]

theorem stripWs_jsTrim (l : List Char) : stripWs (jsTrim l) = stripWs l := by
  simp only [jsTrim]
  rw [show stripWs = List.filter (fun c => ¬ isJsWhitespace c) from rfl]
  rw [List.filter_reverse, ← show stripWs = List.filter (fun c => ¬ isJsWhitespace c) from rfl,
    stripWs_dropWhile]
  rw [show stripWs = List.filter (fun c => ¬ isJsWhitespace c) from rfl, List.filter_reverse,
    List.reverse_reverse,
    ← show stripWs = List.filter (fun c => ¬ isJsWhitespace c) from rfl, stripWs_dropWhile]

/-- **C9** (amended): on names consisting only of ASCII letters, digits and
spaces the three normalizations agree; in general they differ (see the
counterexample). -/
theorem normalizers_agree_on_plain_ascii (s : String)
    (h : ∀ c ∈ s.data, c ∈ plainChars) :
    NewYear.normalizeName s = FreshStart.normalizeName s ∧
    NewYear.normalizeName s = Review.normalizeName s := by
  have key1 : ∀ c ∈ plainChars, accentChar c = c := by decide
  have key2 : ∀ c ∈ plainChars, accentChar (jsToLower c) = jsToLower c := by decide
  have haccent : s.data.map accentChar = s.data :=
    (List.map_congr_left (fun c hc => key1 c (h c hc))).trans (List.map_id s.data)
  constructor
  · simp only [NewYear.normalizeName, FreshStart.normalizeName, haccent]
  · simp only [NewYear.normalizeName, Review.normalizeName, haccent]
    have haccent2 : (s.data.map jsToLower).map accentChar = s.data.map jsToLower := by
      refine (List.map_congr_left ?_).trans (List.map_id _)
      intro c hc
      rcases List.mem_map.1 hc with ⟨c0, hc0, rfl⟩
      exact key2 c0 (h c0 hc0)
    rw [haccent2, stripPunct, stripWs_jsTrim]
    rw [show stripWs = List.filter (fun c => ¬ isJsWhitespace c) from rfl, List.filter_filter]
    apply congrArg
    refine List.filter_congr ?_
    intro c hc
    rcases List.mem_map.1 hc with ⟨c0, hc0, rfl⟩
    revert c0
    have : ∀ c0 ∈ plainChars,
        (decide (jsToLower c0 ∉ punctChars) && decide (¬ isJsWhitespace (jsToLower c0) = true))
          = isLowerAlnum (jsToLower c0) := by decide
    intro c0 hc0 _
    exact this c0 (h c0 hc0)

/-- Witness for C9: the three normalizations agree on "John Smith". -/
theorem normalizers_agree_on_plain_ascii_witness :
    NewYear.normalizeName "John Smith" = FreshStart.normalizeName "John Smith" ∧
    NewYear.normalizeName "John Smith" = Review.normalizeName "John Smith" :=
  normalizers_agree_on_plain_ascii "John Smith" (by decide)

/-! ### Claim C10 -/

/-- **C10** (confirmed): for every runner record produced by the
recompute, `total_races` equals the length of the `years` list, `years` has
no duplicates, and its members are exactly the years having a resolved
entry for that `runner_id` - so several entries of one runner within a year
contribute exactly one race. -/
theorem total_races_counts_distinct_years (rid : String)
    (allResults : List GenerateDb.ProcessedResult) :
    (GenerateDb.processRunner rid allResults).total_races
      = (GenerateDb.processRunner rid allResults).years.length ∧
    (GenerateDb.processRunner rid allResults).years.Nodup ∧
    (∀ y : Int, y ∈ (GenerateDb.processRunner rid allResults).years ↔
      ∃ r ∈ allResults, r.runner_id = some rid ∧ r.year = y) := by
  refine ⟨rfl, ?_, ?_⟩
  · exact nodup_sortYears (nodup_jsDedup _)
  · intro y
    show y ∈ GenerateDb.sortYears (jsDedup ((GenerateDb.runnerResultsFor rid allResults).map
      (fun r => r.year))) ↔ _
    rw [mem_sortYears, mem_jsDedup, List.mem_map]
    constructor
    · rintro ⟨r, hr, rfl⟩
      rcases List.mem_filter.1 hr with ⟨hrl, hp⟩
      exact ⟨r, hrl, by simpa using hp, rfl⟩
    · rintro ⟨r, hrl, hrid, rfl⟩
      exact ⟨r, List.mem_filter.2 ⟨hrl, by simpa using hrid⟩, rfl⟩
